import Mathlib

/-!
Verification development for the PathRenderingLabRs path-processing pipeline.

The Rust sources are shallowly embedded:
* `f64` coordinates (`Coord`) become elements of a `LinearOrderedField`;
  claims that only need field arithmetic and comparisons are instantiated
  at `ℚ` (fully computable), claims that evaluate `sqrt`/`cos`/`sin`/`atan2`
  are instantiated at `ℝ`.
* fallible indexing (`Vec[i]`, which panics in Rust when out of bounds) is
  modelled with `List.getD`; the default value is never reached on the
  concrete runs appearing in the theorems below.
* `Vec`/`ArrayVec` become `List`, `BTreeMap` becomes a sorted association
  list, iterators become folds.
-/

namespace PRL

/-- `EPSILON = 1/32768` from geometry/coord_utils.rs. -/
def EPSILON {α : Type} [LinearOrderedField α] : α := 1 / 32768

/-- `EPSILON2 = EPSILON * EPSILON` from geometry/coord_utils.rs. -/
def EPSILON2 {α : Type} [LinearOrderedField α] : α := EPSILON * EPSILON

/-- `Coord::roughly_zero` (coord_utils.rs): `self > -EPSILON && self < EPSILON`. -/
def roughly_zero {α : Type} [LinearOrderedField α] (x : α) : Bool :=
  decide (-EPSILON < x) && decide (x < EPSILON)

/-- `Coord::roughly_zero_squared` (coord_utils.rs): strict comparison against `EPSILON²`. -/
def roughly_zero_squared {α : Type} [LinearOrderedField α] (x : α) : Bool :=
  decide (-EPSILON2 < x) && decide (x < EPSILON2)

/-- `Coord::roughly_equals` (coord_utils.rs). -/
def roughly_equals {α : Type} [LinearOrderedField α] (x y : α) : Bool :=
  roughly_zero (x - y)

/-- `inside01` (coord_utils.rs): `t >= 0.0 && t <= 1.0`. -/
def inside01 {α : Type} [LinearOrderedField α] (t : α) : Bool :=
  decide (0 ≤ t) && decide (t ≤ 1)

/-- The 2-vector `Vec2` from geometry/vec2.rs, generic over the coordinate field. -/
structure Vec2 (α : Type) where
  x : α
  y : α
deriving DecidableEq, Repr

namespace Vec2

variable {α : Type} [LinearOrderedField α]

instance : Add (Vec2 α) := ⟨fun u v => ⟨u.x + v.x, u.y + v.y⟩⟩
instance : Sub (Vec2 α) := ⟨fun u v => ⟨u.x - v.x, u.y - v.y⟩⟩
instance : Neg (Vec2 α) := ⟨fun v => ⟨-v.x, -v.y⟩⟩
instance : SMul α (Vec2 α) := ⟨fun k v => ⟨k * v.x, k * v.y⟩⟩
instance : HDiv (Vec2 α) α (Vec2 α) := ⟨fun v k => ⟨v.x / k, v.y / k⟩⟩

/-- `Vec2::zero`. -/
def zero : Vec2 α := ⟨0, 0⟩

/-- `Vec2::dot`. -/
def dot (u v : Vec2 α) : α := u.x * v.x + u.y * v.y

/-- `Vec2::cross`: `ax·by − ay·bx`. -/
def cross (u v : Vec2 α) : α := u.x * v.y - u.y * v.x

/-- `Vec2::length_sq`. -/
def length_sq (v : Vec2 α) : α := v.dot v

/-- `Vec2::rot_scale`: complex-style multiplication. -/
def rot_scale (u v : Vec2 α) : Vec2 α :=
  ⟨u.x * v.x - u.y * v.y, u.x * v.y + u.y * v.x⟩

/-- `Vec2::roughly_zero` (vec2.rs): squared length compared against `EPSILON²`. -/
def roughly_zero (v : Vec2 α) : Bool := roughly_zero_squared v.length_sq

/-- `Vec2::roughly_equals` (vec2.rs). -/
def roughly_equals (u v : Vec2 α) : Bool := (u - v).roughly_zero

end Vec2

/-- The 4-vector `Vec4` from geometry/vec4.rs. -/
structure Vec4 (α : Type) where
  x : α
  y : α
  z : α
  w : α
deriving DecidableEq, Repr

namespace Vec4

variable {α : Type} [LinearOrderedField α]

instance : Add (Vec4 α) := ⟨fun u v => ⟨u.x + v.x, u.y + v.y, u.z + v.z, u.w + v.w⟩⟩
instance : Sub (Vec4 α) := ⟨fun u v => ⟨u.x - v.x, u.y - v.y, u.z - v.z, u.w - v.w⟩⟩
instance : Neg (Vec4 α) := ⟨fun v => ⟨-v.x, -v.y, -v.z, -v.w⟩⟩
instance : SMul α (Vec4 α) := ⟨fun k v => ⟨k * v.x, k * v.y, k * v.z, k * v.w⟩⟩
instance : HDiv (Vec4 α) α (Vec4 α) := ⟨fun v k => ⟨v.x / k, v.y / k, v.z / k, v.w / k⟩⟩

/-- `Vec4::zero`. -/
def zero : Vec4 α := ⟨0, 0, 0, 0⟩

end Vec4

/-- The `Ordering`-valued total comparison used to model `partial_cmp(..).unwrap()`
on finite floats. -/
def cmpCoord {α : Type} [LinearOrderedField α] (a b : α) : Ordering :=
  if a < b then .lt else if a = b then .eq else .gt

/-- `canonical` (vec2.rs): order by `y`, ties broken by reversed `x`. -/
def canonical {α : Type} [LinearOrderedField α] (a b : Vec2 α) : Ordering :=
  if a.y = b.y then cmpCoord b.x a.x else cmpCoord a.y b.y

/-!  ### Curve-vertex structures (path/subdivision_structs.rs)  -/

/-- `Triangle` (subdivision_structs.rs). -/
structure Triangle (α : Type) where
  a : Vec2 α
  b : Vec2 α
  c : Vec2 α
deriving DecidableEq, Repr

namespace Triangle

variable {α : Type} [LinearOrderedField α]

/-- `Triangle::new`: swaps `b` and `c` when `(b−a) × (c−a) < 0`. -/
def new (a b c : Vec2 α) : Triangle α :=
  if (b - a).cross (c - a) < 0 then ⟨a, c, b⟩ else ⟨a, b, c⟩

/-- `Triangle::is_degenerate`: the cross product is within EPSILON of zero. -/
def is_degenerate (t : Triangle α) : Bool :=
  roughly_zero ((t.b - t.a).cross (t.c - t.a))

end Triangle

/-- `CurveVertex` (subdivision_structs.rs). -/
structure CurveVertex (α : Type) where
  pos : Vec2 α
  tex : Vec4 α
deriving DecidableEq, Repr

/-- `CurveTriangle` (subdivision_structs.rs). -/
structure CurveTriangle (α : Type) where
  a : CurveVertex α
  b : CurveVertex α
  c : CurveVertex α
deriving DecidableEq, Repr

namespace CurveTriangle

variable {α : Type} [LinearOrderedField α]

/-- `CurveTriangle::new`: swaps `b` and `c` when `(b.pos−a.pos) × (c.pos−a.pos) < 0`. -/
def new (a b c : CurveVertex α) : CurveTriangle α :=
  if (b.pos - a.pos).cross (c.pos - a.pos) < 0 then ⟨a, c, b⟩ else ⟨a, b, c⟩

end CurveTriangle

/-- `CurveVertex::make_triangle_fan` (subdivision_structs.rs): emits
`CurveTriangle::new(v0, v(i-1), v(i))` for `i in 2..len`. -/
def make_triangle_fan {α : Type} [LinearOrderedField α] (vertices : List (CurveVertex α)) :
    List (CurveTriangle α) :=
  (List.range vertices.length).filterMap fun i =>
    if 2 ≤ i then
      some (CurveTriangle.new (vertices.getD 0 ⟨Vec2.zero, Vec4.zero⟩)
        (vertices.getD (i - 1) ⟨Vec2.zero, Vec4.zero⟩)
        (vertices.getD i ⟨Vec2.zero, Vec4.zero⟩))
    else none

/-- `DoubleCurveVertex` (subdivision_structs.rs). -/
structure DoubleCurveVertex (α : Type) where
  pos : Vec2 α
  tex0 : Vec4 α
  tex1 : Vec4 α
  disjoint_union : Bool
deriving DecidableEq, Repr

/-- `DoubleCurveTriangle` (subdivision_structs.rs). -/
structure DoubleCurveTriangle (α : Type) where
  a : DoubleCurveVertex α
  b : DoubleCurveVertex α
  c : DoubleCurveVertex α
deriving DecidableEq, Repr

namespace DoubleCurveTriangle

variable {α : Type} [LinearOrderedField α]

/-- `DoubleCurveTriangle::new`: swaps `b` and `c` when the cross product is negative. -/
def new (a b c : DoubleCurveVertex α) : DoubleCurveTriangle α :=
  if (b.pos - a.pos).cross (c.pos - a.pos) < 0 then ⟨a, c, b⟩ else ⟨a, b, c⟩

end DoubleCurveTriangle

/-- `DoubleCurveVertex::make_triangle_fan` (subdivision_structs.rs). -/
def make_double_triangle_fan {α : Type} [LinearOrderedField α]
    (vertices : List (DoubleCurveVertex α)) : List (DoubleCurveTriangle α) :=
  (List.range vertices.length).filterMap fun i =>
    if 2 ≤ i then
      some (DoubleCurveTriangle.new (vertices.getD 0 ⟨Vec2.zero, Vec4.zero, Vec4.zero, false⟩)
        (vertices.getD (i - 1) ⟨Vec2.zero, Vec4.zero, Vec4.zero, false⟩)
        (vertices.getD i ⟨Vec2.zero, Vec4.zero, Vec4.zero, false⟩))
    else none

/-!  ### C9: `coord_extrapolator` (path/curve_vertices.rs)  -/

/-- The `2 =>` arm of `coord_extrapolator`: extrapolate linearly along the
segment `va`–`vb`. -/
def extrapolate_two {α : Type} [LinearOrderedField α] (va vb : CurveVertex α) (x : Vec2 α) :
    Vec4 α :=
  let dx := vb.pos - va.pos
  let t := (x - va.pos).dot dx / dx.length_sq
  va.tex + t • (vb.tex - va.tex)

/-- The triple-search loop of `coord_extrapolator`: the first `i` whose
consecutive triple `(i, i+1, i+2)` (wrapping) has winding
`roughly_zero_squared`, or `vertices.length` when there is none — this is
exactly the loop in the source, which breaks when the triple's winding IS
roughly zero. -/
def extrapolator_triple_index {α : Type} [LinearOrderedField α]
    (vertices : List (CurveVertex α)) : Nat :=
  let n := vertices.length
  let dflt : CurveVertex α := ⟨Vec2.zero, Vec4.zero⟩
  ((List.range n).find? fun i =>
    let ik := (i + 1) % n
    let ik2 := (i + 2) % n
    let winding := (vertices.getD i dflt).pos.cross (vertices.getD ik dflt).pos +
      (vertices.getD ik dflt).pos.cross (vertices.getD ik2 dflt).pos +
      (vertices.getD ik2 dflt).pos.cross (vertices.getD i dflt).pos
    roughly_zero_squared winding).getD n

/-- `coord_extrapolator` (curve_vertices.rs, lines 180–243).  The recursive
call on the two extreme-`x` vertices is rendered through `extrapolate_two`,
which is the `2 =>` arm verbatim. -/
def coord_extrapolator {α : Type} [LinearOrderedField α]
    (vertices : List (CurveVertex α)) (x : Vec2 α) : Vec4 α :=
  let dflt : CurveVertex α := ⟨Vec2.zero, Vec4.zero⟩
  match vertices.length with
  | 0 => Vec4.zero
  | 1 => (vertices.getD 0 dflt).tex
  | 2 => extrapolate_two (vertices.getD 0 dflt) (vertices.getD 1 dflt) x
  | _ + 3 =>
    let n := vertices.length
    let i := extrapolator_triple_index vertices
    if i = n then
      -- no roughly-zero-area triple found: take the two extreme-x vertices
      let imin := (List.range n).foldl
        (fun imin j => if (vertices.getD imin dflt).pos.x > (vertices.getD j dflt).pos.x
          then j else imin) 0
      let imax := (List.range n).foldl
        (fun imax j => if (vertices.getD imax dflt).pos.x < (vertices.getD j dflt).pos.x
          then j else imax) 0
      extrapolate_two (vertices.getD imin dflt) (vertices.getD imax dflt) x
    else
      let ik := (i + 1) % n
      let ik2 := (i + 2) % n
      let a := (vertices.getD i dflt).pos
      let dv1 := (vertices.getD ik dflt).pos
      let dv2 := (vertices.getD ik2 dflt).pos
      let k := dv1.cross dv2
      let ta := (vertices.getD i dflt).tex
      let tb := (vertices.getD ik dflt).tex
      let tc := (vertices.getD ik2 dflt).tex
      let u := (x - a).cross dv2 / k
      let v := -((x - a).cross dv1) / k
      ta + u • (tb - ta) + v • (tc - ta)

/-- The barycentric interpolation the spec asks for at a reference vertex:
any correct barycentric extrapolation evaluated at a reference vertex must
return that vertex's own texture coordinates.  (Used only to exhibit the
divergence of `coord_extrapolator` from the spec.) -/
def barycentric_at_vertex {α : Type} [LinearOrderedField α]
    (v : CurveVertex α) : Vec4 α := v.tex

/-!  ### C10: `path_to_curves` (path/mod.rs)  -/

/-- The `PathCommand` enum (path/mod.rs), coordinates in `ℚ`. -/
inductive PathCommand
  | moveTo (target : Vec2 ℚ)
  | lineTo (target : Vec2 ℚ)
  | quadraticBezierTo (ctl target : Vec2 ℚ)
  | cubicBezierTo (ctl1 ctl2 target : Vec2 ℚ)
  | ellipticArcTo (radii : Vec2 ℚ) (angle : ℚ) (largeArc sweep : Bool) (target : Vec2 ℚ)
  | closePath
deriving DecidableEq, Repr

/-- The curves constructed by `PathToCurvesIterator::next`, recorded as the
constructor calls made in path/mod.rs (`Curve::line`, `Curve::quadratic_bezier`,
`Curve::cubic_bezier`, `Curve::elliptic_arc`); the elliptic-arc endpoint
parameters are kept un-evaluated (their conversion lives in
curve/elliptic_arc_gen.rs, not in `path_to_curves`). -/
inductive PCurve
  | line (a b : Vec2 ℚ)
  | quad (a b c : Vec2 ℚ)
  | cubic (a b c d : Vec2 ℚ)
  | arc (cur radii : Vec2 ℚ) (angle : ℚ) (largeArc sweep : Bool) (target : Vec2 ℚ)
deriving DecidableEq, Repr

/-- `CurveComp` (path/mod.rs). -/
structure CurveComp where
  curves : List PCurve
  closed : Bool
deriving DecidableEq, Repr

/-- The loop of `PathToCurvesIterator::next` (path/mod.rs, lines 77–122),
unrolled over the whole command stream: `first`/`prev` are the iterator's
`first_vec`/`prev_vec` fields, `acc` the `curves` vector being accumulated.
The `!=` in the `ClosePath` arm is the derived exact equality of `Vec2`
(`PartialEq`), not the epsilon comparison. -/
def path_to_curves_from (first prev : Vec2 ℚ) (acc : List PCurve) :
    List PathCommand → List CurveComp
  | [] => if acc ≠ [] then [⟨acc, false⟩] else []
  | .moveTo t :: rest =>
    if acc ≠ [] then ⟨acc, false⟩ :: path_to_curves_from t t [] rest
    else path_to_curves_from t t [] rest
  | .lineTo t :: rest => path_to_curves_from first t (acc ++ [.line prev t]) rest
  | .quadraticBezierTo c t :: rest =>
    path_to_curves_from first t (acc ++ [.quad prev c t]) rest
  | .cubicBezierTo c1 c2 t :: rest =>
    path_to_curves_from first t (acc ++ [.cubic prev c1 c2 t]) rest
  | .ellipticArcTo r a la sw t :: rest =>
    path_to_curves_from first t (acc ++ [.arc prev r a la sw t]) rest
  | .closePath :: rest =>
    let acc' := if prev ≠ first then acc ++ [.line prev first] else acc
    if acc' ≠ [] then ⟨acc', true⟩ :: path_to_curves_from first first [] rest
    else path_to_curves_from first first acc' rest

/-- `path_to_curves` (path/mod.rs, line 65): both state vectors start at zero. -/
def path_to_curves (path : List PathCommand) : List CurveComp :=
  path_to_curves_from Vec2.zero Vec2.zero [] path

/-!  ### C8: the Y-monotone triangulator (path/triangulation/mod.rs)  -/

/-- `VertexType` (triangulation/vertex.rs). -/
inductive VertexType
  | End | Start | Split | RegularLeft | RegularRight | Merge
deriving DecidableEq, Repr

/-- `ChainVertex` (triangulation/vertex.rs); its `Ord` compares positions with
`canonical` only. -/
structure ChainVertex (α : Type) where
  pos : Vec2 α
  type_ : VertexType
deriving DecidableEq, Repr

/-- `merge` (merge.rs) specialised to `ChainVertex` as `triangulate_monotone`
uses it: take from the first iterator while its head is strictly smaller. -/
def mergeChains {α : Type} [LinearOrderedField α] :
    List (ChainVertex α) → List (ChainVertex α) → List (ChainVertex α)
  | [], l1 => l1
  | l0, [] => l0
  | a :: as_, b :: bs =>
    if canonical a.pos b.pos = .lt then a :: mergeChains as_ (b :: bs)
    else b :: mergeChains (a :: as_) bs
termination_by l0 l1 => l0.length + l1.length

/-- `special_point` (triangulation/mod.rs, lines 237–252). -/
def special_point {α : Type} [LinearOrderedField α] (poly : List (Vec2 α)) (bflag : Bool) :
    Nat :=
  let len := poly.length
  ((List.range len).find? fun i =>
    let prev := poly.getD ((if i = 0 then len else i) - 1) Vec2.zero
    let cur := poly.getD i Vec2.zero
    let next := poly.getD (if i = len - 1 then 0 else i + 1) Vec2.zero
    let cond := if bflag then Ordering.gt else Ordering.lt
    decide (canonical cur prev = cond ∧ canonical cur next = cond)).getD 0

/-- `can_make_diagonal` (triangulation/mod.rs, lines 300–306). -/
def can_make_diagonal {α : Type} [LinearOrderedField α] (o vert pvert : ChainVertex α) :
    Bool :=
  if vert.type_ = .RegularLeft then
    decide (0 ≤ (o.pos - pvert.pos).cross (vert.pos - pvert.pos))
  else
    decide ((o.pos - pvert.pos).cross (vert.pos - pvert.pos) ≤ 0)

/-- The `while !stack.is_empty()` fan-out loops of `triangulate_monotone`
(lines 292–297 and 329–333): pop every stacked vertex, emitting
`Triangle::new(pvert, vert, other)` at each step. -/
def fan_off_stack {α : Type} [LinearOrderedField α] (pvertPos vertPos : Vec2 α) :
    List (ChainVertex α) → List (Triangle α) → List (Triangle α)
  | [], acc => acc
  | other :: rest, acc =>
    fan_off_stack pvertPos other.pos rest (acc ++ [Triangle.new pvertPos vertPos other.pos])

/-- The `while can_make_diagonal` loop of `triangulate_monotone`
(lines 308–316); returns the final `vert`, remaining stack and triangles.
The source reads the stack top before testing and would panic on an empty
stack; that read is modelled by the `[]` arm exiting the loop. -/
def diag_loop {α : Type} [LinearOrderedField α] (pvert : ChainVertex α) :
    ChainVertex α → List (ChainVertex α) → List (Triangle α) →
      ChainVertex α × List (ChainVertex α) × List (Triangle α)
  | vert, [], acc => (vert, [], acc)
  | vert, other :: rest, acc =>
    if can_make_diagonal other vert pvert then
      diag_loop pvert other rest (acc ++ [Triangle.new pvert.pos vert.pos other.pos])
    else (vert, other :: rest, acc)

/-- One iteration of the `for j in 1..vertices.len()` loop of
`triangulate_monotone` (lines 287–322).  The stack is a list with its head as
the top (Rust pushes and pops at the vector's end).  The source pops
unconditionally and would panic on an empty stack; that state is unreached
(every iteration ends with two pushes) and modelled as a no-op. -/
def monotone_step {α : Type} [LinearOrderedField α] (vertices : List (ChainVertex α))
    (st : List (ChainVertex α) × List (Triangle α)) (j : Nat) :
    List (ChainVertex α) × List (Triangle α) :=
  let dfltCV : ChainVertex α := ⟨Vec2.zero, .Start⟩
  let pvert := vertices.getD j dfltCV
  match st.1 with
  | [] => st
  | vert :: rest =>
    if vert.type_ ≠ .Start ∧ pvert.type_ ≠ vert.type_ then
      ([pvert, vertices.getD (j - 1) dfltCV], fan_off_stack pvert.pos vert.pos rest st.2)
    else
      let r := diag_loop pvert vert rest st.2
      (pvert :: r.1 :: r.2.1, r.2.2)

/-- `triangulate_monotone` (triangulation/mod.rs, lines 254–335), appending to
`acc` as the source appends to its `&mut Vec<Triangle>`.  Lengths 0 and 1
panic in the source (out-of-bounds indexing) and are modelled as no-ops;
they are not produced by `partition_to_monotone`. -/
def triangulate_monotone {α : Type} [LinearOrderedField α] (acc : List (Triangle α))
    (polygon : List (Vec2 α)) : List (Triangle α) :=
  let len := polygon.length
  let z : Vec2 α := Vec2.zero
  if len ≤ 2 then acc
  else if len = 3 then
    acc ++ [Triangle.new (polygon.getD 0 z) (polygon.getD 1 z) (polygon.getD 2 z)]
  else
    let beginI := special_point polygon true
    let endI := special_point polygon false
    let mkL := fun i => (⟨polygon.getD i z, VertexType.RegularLeft⟩ : ChainVertex α)
    let mkR := fun i => (⟨polygon.getD i z, VertexType.RegularRight⟩ : ChainVertex α)
    let vertices :=
      if beginI < endI then
        mergeChains (((List.range' (beginI + 1) (endI - (beginI + 1))).map mkL).reverse)
          (((List.range' (endI + 1) (len - (endI + 1))).map mkR) ++
            ((List.range beginI).map mkR))
      else
        mergeChains ((((List.range' (beginI + 1) (len - (beginI + 1))).map mkL) ++
            ((List.range endI).map mkL)).reverse)
          ((List.range' (endI + 1) (beginI - (endI + 1))).map mkR)
    let vertices := vertices.reverse
    let dfltCV : ChainVertex α := ⟨z, .Start⟩
    let stack0 := [vertices.getD 0 dfltCV, ⟨polygon.getD beginI z, VertexType.Start⟩]
    let r := (List.range' 1 (vertices.length - 1)).foldl (monotone_step vertices) (stack0, acc)
    match r.1 with
    | [] => r.2
    | vert :: rest => fan_off_stack (polygon.getD endI z) vert.pos rest r.2

/-- The triangle-emitting part of `triangulate` (triangulation/mod.rs,
lines 39–46): fold `triangulate_monotone` over the Y-monotone pieces, then
`retain` the non-degenerate triangles.  The sweep `partition_to_monotone`
only determines which pieces arrive here, so the claims below quantify over
arbitrary piece lists. -/
def triangulate_pieces {α : Type} [LinearOrderedField α]
    (pieces : List (List (Vec2 α))) : List (Triangle α) :=
  (pieces.foldl triangulate_monotone []).filter (fun t => !t.is_degenerate)

/-!  ### The curve algebra over `ℝ` (curve/*.rs)

`f64` operations that evaluate `sqrt`, `cos`, `sin`, `atan2`, `acos` are
embedded over `ℝ` with the corresponding real functions, so these
definitions are `noncomputable`; concrete evaluations in the theorems below
go through `simp`/`norm_num`. -/

/-- `Vec2::length` (vec2.rs): `sqrt` of the squared length. -/
noncomputable def Vec2.length (v : Vec2 ℝ) : ℝ := Real.sqrt v.length_sq

/-- `Vec2::normalized` (vec2.rs). -/
noncomputable def Vec2.normalized (v : Vec2 ℝ) : Vec2 ℝ := v / v.length

/-- IEEE `atan2(y, x)` on finite inputs, as used by `Vec2::angle`. -/
noncomputable def atan2 (y x : ℝ) : ℝ :=
  if 0 < x then Real.arctan (y / x)
  else if x < 0 then
    if 0 ≤ y then Real.arctan (y / x) + Real.pi else Real.arctan (y / x) - Real.pi
  else if 0 < y then Real.pi / 2
  else if y < 0 then -(Real.pi / 2)
  else 0

/-- `Vec2::angle` (vec2.rs): `atan2(y, x)`. -/
noncomputable def Vec2.angle (v : Vec2 ℝ) : ℝ := atan2 v.y v.x

/-- `Vec2::angle_facing` (vec2.rs). -/
noncomputable def Vec2.angle_facing (v other : Vec2 ℝ) : ℝ := (other - v).angle

/-- `Coord::wrap_angle` (coord_utils.rs): `self + 2π·round(−self/2π)`.
`f64::round` rounds half away from zero while Mathlib's `round` rounds half
up; the difference only matters at exact half-integers of `−self/2π`, which
no run below reaches. -/
noncomputable def wrap_angle (x : ℝ) : ℝ :=
  x + (2 * Real.pi) * ((round (-x / (2 * Real.pi)) : ℤ) : ℝ)

/-- The `INFINITY` sentinel returned by `EllipticArc::angle_to_param` when the
angle misses the sweep.  `ℝ` has no infinity; every consumer of this value in
the source only asks whether it lies in a subinterval of `[0, 1]`, which this
sentinel fails exactly as `f64::INFINITY` does. -/
def INFSENT : ℝ := 2 ^ 1024

/-- Modelled from the spec: `find_roots_linear` of the external `roots` crate
(outside src/), the univariate linear solver used by `Line` intersections. -/
def find_roots_linear {α : Type} [LinearOrderedField α] (a1 a0 : α) : List α :=
  if a1 = 0 then (if a0 = 0 then [0] else []) else [-a0 / a1]

/-- Modelled from the spec: `find_roots_quadratic` of the external `roots`
crate (outside src/): real roots of `a2·x² + a1·x + a0` in increasing order,
delegating to the linear solver when `a2 = 0`. -/
noncomputable def find_roots_quadratic (a2 a1 a0 : ℝ) : List ℝ :=
  if a2 = 0 then find_roots_linear a1 a0
  else
    let d := a1 * a1 - 4 * a2 * a0
    if d < 0 then []
    else if d = 0 then [-a1 / (2 * a2)]
    else
      let sq := Real.sqrt d
      let x1 := (-a1 - sq) / (2 * a2)
      let x2 := (-a1 + sq) / (2 * a2)
      if x1 ≤ x2 then [x1, x2] else [x2, x1]

/-- Modelled from the spec: `find_roots_cubic` of the external `roots` crate
(outside src/): the real roots of `a3·x³ + a2·x² + a1·x + a0`, delegating to
the quadratic solver when `a3 = 0`.  The root order is unspecified; no
theorem below depends on it. -/
noncomputable def find_roots_cubic (a3 a2 a1 a0 : ℝ) : List ℝ :=
  if a3 = 0 then find_roots_quadratic a2 a1 a0
  else
    (((Polynomial.C a3) * Polynomial.X ^ 3 + (Polynomial.C a2) * Polynomial.X ^ 2 +
      (Polynomial.C a1) * Polynomial.X + Polynomial.C a0).roots).toList

/-- `Line` (curve/line.rs). -/
structure Line where
  a : Vec2 ℝ
  b : Vec2 ℝ

namespace Line

/-- `Line::at` (`at` is reserved in Lean): `(1−t)·a + t·b`. -/
noncomputable def pointAt (l : Line) (t : ℝ) : Vec2 ℝ := (1 - t) • l.a + t • l.b

/-- `Line::derivative`. -/
noncomputable def derivative (l : Line) : Line := ⟨l.b - l.a, l.b - l.a⟩

/-- `Line::subcurve`. -/
noncomputable def subcurve (ln : Line) (l r : ℝ) : Line := ⟨ln.pointAt l, ln.pointAt r⟩

/-- `Line::reverse`. -/
def reverse (l : Line) : Line := ⟨l.b, l.a⟩

/-- `Line::winding`. -/
noncomputable def winding (l : Line) : ℝ := l.a.cross l.b

/-- `Line::intersection_x`. -/
noncomputable def intersection_x (l : Line) (x : ℝ) : List ℝ :=
  find_roots_linear (l.b.x - l.a.x) (l.a.x - x)

/-- `Line::intersection_y`. -/
noncomputable def intersection_y (l : Line) (y : ℝ) : List ℝ :=
  find_roots_linear (l.b.y - l.a.y) (l.a.y - y)

/-- `Line::intersection_seg`. -/
noncomputable def intersection_seg (l : Line) (v1 v2 : Vec2 ℝ) : List ℝ :=
  let dv := v2 - v1
  find_roots_linear (dv.cross (l.b - l.a)) (dv.cross (l.a - v1))

end Line

/-- `QuadraticBezier` (curve/quadratic_bezier.rs). -/
structure QuadraticBezier where
  a : Vec2 ℝ
  b : Vec2 ℝ
  c : Vec2 ℝ

namespace QuadraticBezier

/-- `QuadraticBezier::at`. -/
noncomputable def pointAt (q : QuadraticBezier) (t : ℝ) : Vec2 ℝ :=
  let ct := 1 - t
  (ct * ct) • q.a + (2 * ct * t) • q.b + (t * t) • q.c

/-- `QuadraticBezier::derivative`. -/
noncomputable def derivative (q : QuadraticBezier) : Line :=
  ⟨(2 : ℝ) • (q.b - q.a), (2 : ℝ) • (q.c - q.b)⟩

/-- `QuadraticBezier::subcurve`. -/
noncomputable def subcurve (q : QuadraticBezier) (l r : ℝ) : QuadraticBezier :=
  let a := q.pointAt l
  let c := q.pointAt r
  let cl := 1 - l
  let cr := 1 - r
  let b := (cl * cr) • q.a + (l * cr + r * cl) • q.b + (l * r) • q.c
  ⟨a, b, c⟩

/-- `QuadraticBezier::reverse`. -/
def reverse (q : QuadraticBezier) : QuadraticBezier := ⟨q.c, q.b, q.a⟩

/-- `QuadraticBezier::winding`. -/
noncomputable def winding (q : QuadraticBezier) : ℝ :=
  (2 * q.a.cross q.b + 2 * q.b.cross q.c + q.a.cross q.c) / 3

/-- `QuadraticBezier::intersection_x`. -/
noncomputable def intersection_x (q : QuadraticBezier) (x : ℝ) : List ℝ :=
  find_roots_quadratic (q.a.x - 2 * q.b.x + q.c.x) (2 * (q.b.x - q.a.x)) (q.a.x - x)

/-- `QuadraticBezier::intersection_y`. -/
noncomputable def intersection_y (q : QuadraticBezier) (y : ℝ) : List ℝ :=
  find_roots_quadratic (q.a.y - 2 * q.b.y + q.c.y) (2 * (q.b.y - q.a.y)) (q.a.y - y)

/-- `QuadraticBezier::intersection_seg`. -/
noncomputable def intersection_seg (q : QuadraticBezier) (v1 v2 : Vec2 ℝ) : List ℝ :=
  let dv := v1 - v2
  find_roots_quadratic (dv.cross (q.a - (2 : ℝ) • q.b + q.c)) (2 * dv.cross (q.b - q.a))
    (dv.cross (q.a - v1))

end QuadraticBezier

/-- `CubicBezier` (curve/cubic_bezier.rs). -/
structure CubicBezier where
  a : Vec2 ℝ
  b : Vec2 ℝ
  c : Vec2 ℝ
  d : Vec2 ℝ

namespace CubicBezier

/-- `CubicBezier::at`. -/
noncomputable def pointAt (cb : CubicBezier) (t : ℝ) : Vec2 ℝ :=
  let ct := 1 - t
  (ct * ct * ct) • cb.a + (3 * ct * ct * t) • cb.b + (3 * ct * t * t) • cb.c +
    (t * t * t) • cb.d

/-- `CubicBezier::derivative`. -/
noncomputable def derivative (cb : CubicBezier) : QuadraticBezier :=
  ⟨(3 : ℝ) • (cb.b - cb.a), (3 : ℝ) • (cb.c - cb.b), (3 : ℝ) • (cb.d - cb.c)⟩

/-- `CubicBezier::subcurve`. -/
noncomputable def subcurve (cb : CubicBezier) (l r : ℝ) : CubicBezier :=
  let a := cb.pointAt l
  let d := cb.pointAt r
  let dd := cb.derivative
  let d1 := (r - l) • dd.pointAt l
  let d2 := (r - l) • dd.pointAt r
  let b := d1 / (3 : ℝ) + a
  let c := d - d2 / (3 : ℝ)
  ⟨a, b, c, d⟩

/-- `CubicBezier::reverse`. -/
def reverse (cb : CubicBezier) : CubicBezier := ⟨cb.d, cb.c, cb.b, cb.a⟩

/-- `CubicBezier::winding`. -/
noncomputable def winding (cb : CubicBezier) : ℝ :=
  (6 * cb.a.cross cb.b + 3 * cb.a.cross cb.c + cb.a.cross cb.d + 3 * cb.b.cross cb.c +
    3 * cb.b.cross cb.d + 6 * cb.c.cross cb.d) / 10

/-- `CubicBezier::intersection_x`. -/
noncomputable def intersection_x (cb : CubicBezier) (x : ℝ) : List ℝ :=
  find_roots_cubic (-cb.a.x + 3 * cb.b.x - 3 * cb.c.x + cb.d.x)
    (3 * (cb.a.x - 2 * cb.b.x + cb.c.x)) (3 * (cb.b.x - cb.a.x)) (cb.a.x - x)

/-- `CubicBezier::intersection_y`. -/
noncomputable def intersection_y (cb : CubicBezier) (y : ℝ) : List ℝ :=
  find_roots_cubic (-cb.a.y + 3 * cb.b.y - 3 * cb.c.y + cb.d.y)
    (3 * (cb.a.y - 2 * cb.b.y + cb.c.y)) (3 * (cb.b.y - cb.a.y)) (cb.a.y - y)

/-- `CubicBezier::intersection_seg`. -/
noncomputable def intersection_seg (cb : CubicBezier) (v1 v2 : Vec2 ℝ) : List ℝ :=
  let dv := v1 - v2
  find_roots_cubic (dv.cross (-cb.a + (3 : ℝ) • cb.b - (3 : ℝ) • cb.c + cb.d))
    (3 * dv.cross (cb.a - (2 : ℝ) • cb.b + cb.c)) (3 * dv.cross (cb.b - cb.a))
    (dv.cross (cb.a - v1))

end CubicBezier

/-- `EllipticArc` (curve/elliptic_arc.rs). -/
structure EllipticArc where
  center : Vec2 ℝ
  radii : Vec2 ℝ
  crot : Vec2 ℝ
  t1 : ℝ
  dt : ℝ

namespace EllipticArc

/-- `EllipticArc::local_to_global`. -/
noncomputable def local_to_global (e : EllipticArc) (p : Vec2 ℝ) : Vec2 ℝ :=
  e.center + e.crot.rot_scale p

/-- `EllipticArc::delta_at` exactly as written in the source
(elliptic_arc.rs, line 24): the angle is `t1 * t + dt`. -/
noncomputable def delta_at (e : EllipticArc) (t : ℝ) : Vec2 ℝ :=
  let th := e.t1 * t + e.dt
  ⟨e.radii.x * Real.cos th, e.radii.y * Real.sin th⟩

/-- `EllipticArc::at`. -/
noncomputable def pointAt (e : EllipticArc) (t : ℝ) : Vec2 ℝ :=
  e.local_to_global (e.delta_at t)

/-- `EllipticArc::lesser_angle`. -/
noncomputable def lesser_angle (e : EllipticArc) : ℝ := min e.t1 (e.t1 + e.dt)

/-- `EllipticArc::greater_angle`. -/
noncomputable def greater_angle (e : EllipticArc) : ℝ := max e.t1 (e.t1 + e.dt)

/-- `EllipticArc::angle_to_param`: try the wrapped angle and up to two double
turns on each side; the source's `INFINITY` on a miss becomes the `INFSENT`
sentinel. -/
noncomputable def angle_to_param (e : EllipticArc) (theta : ℝ) : ℝ :=
  let th := wrap_angle theta
  match ([-2, -1, 0, 1, 2] : List ℝ).find? (fun i =>
      decide (e.lesser_angle ≤ th + i * (2 * Real.pi)) &&
      decide (th + i * (2 * Real.pi) ≤ e.greater_angle)) with
  | some i => (th + i * (2 * Real.pi) - e.t1) / e.dt
  | none => INFSENT

/-- `EllipticArc::subcurve`: `{t1 + l·dt, (r−l)·dt}`. -/
noncomputable def subcurve (e : EllipticArc) (l r : ℝ) : EllipticArc :=
  { e with t1 := e.t1 + l * e.dt, dt := (r - l) * e.dt }

/-- `EllipticArc::reverse`: `{t1 + dt, −dt}`. -/
def reverse (e : EllipticArc) : EllipticArc :=
  { e with t1 := e.t1 + e.dt, dt := -e.dt }

/-- `EllipticArc::winding`. -/
noncomputable def winding (e : EllipticArc) : ℝ :=
  let p0 := e.delta_at 0
  let p1 := e.delta_at 1
  e.dt * e.radii.x * e.radii.y + e.center.cross (e.crot.rot_scale (p1 - p0))

/-- `EllipticArc::intersection_x`. -/
noncomputable def intersection_x (e : EllipticArc) (x : ℝ) : List ℝ :=
  let cp : Vec2 ℝ := ⟨e.radii.x * e.crot.x, e.radii.y * e.crot.y⟩
  let diff := x - e.center.x
  if |diff| > cp.length then []
  else
    let ac := Real.arccos (diff / cp.length)
    [e.angle_to_param (ac + cp.angle), e.angle_to_param (-ac + cp.angle)]

/-- `EllipticArc::intersection_y`. -/
noncomputable def intersection_y (e : EllipticArc) (y : ℝ) : List ℝ :=
  let cp : Vec2 ℝ := ⟨e.radii.x * e.crot.y, e.radii.y * e.crot.x⟩
  let diff := y - e.center.y
  if |diff| > cp.length then []
  else
    let ac := Real.arccos (diff / cp.length)
    [e.angle_to_param (ac + cp.angle), e.angle_to_param (-ac + cp.angle)]

/-- `EllipticArc::intersection_seg`. -/
noncomputable def intersection_seg (e : EllipticArc) (v1 v2 : Vec2 ℝ) : List ℝ :=
  let dv := v2 - v1
  let cp : Vec2 ℝ := ⟨e.radii.x * e.crot.cross dv, e.radii.y * e.crot.dot dv⟩
  let diff := (e.center - v1).cross dv
  if |diff| > cp.length then []
  else
    let ac := Real.arccos (diff / cp.length)
    [e.angle_to_param (ac + cp.angle), e.angle_to_param (-ac + cp.angle)]

end EllipticArc

/-- The `Curve` sum type (curve/mod.rs). -/
inductive Curve
  | line (l : Line)
  | quadraticBezier (q : QuadraticBezier)
  | cubicBezier (c : CubicBezier)
  | ellipticArc (e : EllipticArc)

namespace Curve

/-- `Curve::at`, the `forward_to_curves!` dispatch. -/
noncomputable def pointAt : Curve → ℝ → Vec2 ℝ
  | .line l, t => l.pointAt t
  | .quadraticBezier q, t => q.pointAt t
  | .cubicBezier c, t => c.pointAt t
  | .ellipticArc e, t => e.pointAt t

/-- `Curve::subcurve`. -/
noncomputable def subcurve : Curve → ℝ → ℝ → Curve
  | .line ln, l, r => .line (ln.subcurve l r)
  | .quadraticBezier q, l, r => .quadraticBezier (q.subcurve l r)
  | .cubicBezier c, l, r => .cubicBezier (c.subcurve l r)
  | .ellipticArc e, l, r => .ellipticArc (e.subcurve l r)

/-- `Curve::reverse`. -/
def reverse : Curve → Curve
  | .line l => .line l.reverse
  | .quadraticBezier q => .quadraticBezier q.reverse
  | .cubicBezier c => .cubicBezier c.reverse
  | .ellipticArc e => .ellipticArc e.reverse

/-- `Curve::winding`. -/
noncomputable def winding : Curve → ℝ
  | .line l => l.winding
  | .quadraticBezier q => q.winding
  | .cubicBezier c => c.winding
  | .ellipticArc e => e.winding

/-- `Curve::intersection_x`. -/
noncomputable def intersection_x : Curve → ℝ → List ℝ
  | .line l, x => l.intersection_x x
  | .quadraticBezier q, x => q.intersection_x x
  | .cubicBezier c, x => c.intersection_x x
  | .ellipticArc e, x => e.intersection_x x

/-- `Curve::intersection_y`. -/
noncomputable def intersection_y : Curve → ℝ → List ℝ
  | .line l, y => l.intersection_y y
  | .quadraticBezier q, y => q.intersection_y y
  | .cubicBezier c, y => c.intersection_y y
  | .ellipticArc e, y => e.intersection_y y

/-- `Curve::intersection_seg`. -/
noncomputable def intersection_seg : Curve → Vec2 ℝ → Vec2 ℝ → List ℝ
  | .line l, v1, v2 => l.intersection_seg v1 v2
  | .quadraticBezier q, v1, v2 => q.intersection_seg v1 v2
  | .cubicBezier c, v1, v2 => c.intersection_seg v1 v2
  | .ellipticArc e, v1, v2 => e.intersection_seg v1 v2

end Curve

/-!  ### C7: the intersection routine (curve/intersection.rs)  -/

/-- `Rect` (geometry/rect.rs). -/
structure Rect where
  x : ℝ
  y : ℝ
  width : ℝ
  height : ℝ

namespace Rect

/-- `Rect::strictly_intersects`. -/
noncomputable def strictly_intersects (a b : Rect) : Bool :=
  !(decide (a.x ≥ b.x + b.width) || decide (b.x ≥ a.x + a.width) ||
    decide (a.y ≥ b.y + b.height) || decide (b.y ≥ a.y + a.height))

/-- `Rect::strict_intersection`. -/
noncomputable def strict_intersection (a b : Rect) : Option Rect :=
  if a.strictly_intersects b then
    let x1 := max a.x b.x
    let x2 := min (a.x + a.width) (b.x + b.width)
    let y1 := max a.y b.y
    let y2 := min (a.y + a.height) (b.y + b.height)
    some ⟨x1, y1, x2 - x1, y2 - y1⟩
  else none

/-- `Rect::contains_point`. -/
noncomputable def contains_point (r : Rect) (pt : Vec2 ℝ) : Bool :=
  decide (r.x ≤ pt.x) && decide (r.y ≤ pt.y) &&
    decide (r.x + r.width ≥ pt.x) && decide (r.y + r.height ≥ pt.y)

/-- `Rect::enclosing_rect_of_two_points`. -/
noncomputable def enclosing_rect_of_two_points (pt1 pt2 : Vec2 ℝ) : Rect :=
  let x1 := min pt1.x pt2.x
  let x2 := max pt1.x pt2.x
  let y1 := min pt1.y pt2.y
  let y2 := max pt1.y pt2.y
  ⟨x1, y1, x2 - x1, y2 - y1⟩

end Rect

/-- `IntersectionPair(t1, t2)` (intersection.rs). -/
structure IntersectionPair where
  t1 : ℝ
  t2 : ℝ

/-- `intersection_line_line` (intersection.rs, lines 47–101). -/
noncomputable def intersection_line_line (l1 l2 : Line) : List IntersectionPair :=
  let p := l1.a
  let q := l2.a
  let r := l1.b - l1.a
  let s := l2.b - l2.a
  let rr := r.normalized
  let ss := s.normalized
  let k := r.cross s
  let kk := rr.cross ss
  if roughly_zero_squared kk then
    let rs := if rr.dot ss > 0 then (rr + ss).normalized else (rr - ss).normalized
    if roughly_zero_squared ((q - p).cross rs) then
      let tab0 := (q - p).dot r / r.length_sq
      let tab1 := tab0 + s.dot r / r.length_sq
      let tba0 := (p - q).dot s / s.length_sq
      let tba1 := tba0 + r.dot s / s.length_sq
      if 1 > min tab0 tab1 ∧ 0 < max tab0 tab1 then
        if 0 ≤ tab0 ∧ tab0 ≤ 1 then
          if tab1 > 1 then [⟨tab0, 0⟩, ⟨1, tba1⟩]
          else if tab1 < 0 then [⟨tab0, 0⟩, ⟨0, tba0⟩]
          else [⟨tab0, 0⟩, ⟨tab1, 1⟩]
        else if 0 < tab1 ∧ tab1 ≤ 1 then
          if tab0 < 0 then [⟨0, tba0⟩, ⟨tab1, 1⟩]
          else [⟨1, tba1⟩, ⟨tab1, 1⟩]
        else [⟨0, tba0⟩, ⟨1, tba1⟩]
      else []
    else []
  else
    let t := (q - p).cross s / k
    let u := (q - p).cross r / k
    [⟨t, u⟩]

/-- `is_rectangle_negligible` (intersection.rs, lines 132–134). -/
noncomputable def is_rectangle_negligible (r : Rect) : Bool :=
  roughly_zero (r.width * 2) && roughly_zero (r.height * 2)

/-- `intersection_generic_monotonous` (intersection.rs, lines 112–189).  The
source recursion terminates only because `f64` interval midpoints eventually
make the bounding boxes negligible; that metric argument is modelled by an
explicit fuel (exhaustion returns no further pairs). -/
noncomputable def intersection_generic_monotonous (c1 c2 : Curve) :
    Nat → ℝ → ℝ → ℝ → ℝ → List IntersectionPair
  | 0, _, _, _, _ => []
  | fuel + 1, t1l, t1r, t2l, t2r =>
    let endpoints : List IntersectionPair :=
      (if c1.pointAt t1l = c2.pointAt t2l then [⟨t1l, t2l⟩] else []) ++
      (if c1.pointAt t1l = c2.pointAt t2r then [⟨t1l, t2r⟩] else []) ++
      (if c1.pointAt t1r = c2.pointAt t2l then [⟨t1r, t2l⟩] else []) ++
      (if c1.pointAt t1r = c2.pointAt t2r then [⟨t1r, t2r⟩] else [])
    let bb1s := Rect.enclosing_rect_of_two_points (c1.pointAt t1l) (c1.pointAt t1r)
    let bb2s := Rect.enclosing_rect_of_two_points (c2.pointAt t2l) (c2.pointAt t2r)
    match bb1s.strict_intersection bb2s with
    | none => endpoints
    | some bb =>
      let t1m := (t1l + t1r) / 2
      let t2m := (t2l + t2r) / 2
      let r1 := is_rectangle_negligible bb1s
      let r2 := is_rectangle_negligible bb2s
      if !r1 && !r2 then
        endpoints ++
          intersection_generic_monotonous c1 c2 fuel t1l t1m t2l t2m ++
          intersection_generic_monotonous c1 c2 fuel t1l t1m t2m t2r ++
          intersection_generic_monotonous c1 c2 fuel t1m t1r t2l t2m ++
          intersection_generic_monotonous c1 c2 fuel t1m t1r t2m t2r
      else if r1 && !r2 then
        endpoints ++
          intersection_generic_monotonous c1 c2 fuel t1l t1r t2l t2m ++
          intersection_generic_monotonous c1 c2 fuel t1l t1r t2m t2r
      else if !r1 && r2 then
        endpoints ++
          intersection_generic_monotonous c1 c2 fuel t1l t1m t2l t2r ++
          intersection_generic_monotonous c1 c2 fuel t1m t1r t2l t2r
      else
        let contained : List IntersectionPair :=
          (if bb.contains_point (c1.pointAt t1l) && bb.contains_point (c2.pointAt t2l)
            then [⟨t1l, t2l⟩] else []) ++
          (if bb.contains_point (c1.pointAt t1l) && bb.contains_point (c2.pointAt t2r)
            then [⟨t1l, t2r⟩] else []) ++
          (if bb.contains_point (c1.pointAt t1r) && bb.contains_point (c2.pointAt t2l)
            then [⟨t1r, t2l⟩] else []) ++
          (if bb.contains_point (c1.pointAt t1r) && bb.contains_point (c2.pointAt t2r)
            then [⟨t1r, t2r⟩] else [])
        let curve_roots := fun (cv : Curve) (tl tr : ℝ) =>
          let roots := cv.intersection_x bb.x ++ cv.intersection_x (bb.x + bb.width) ++
            cv.intersection_y bb.y ++ cv.intersection_y (bb.y + bb.height)
          let vec := roots.filter (fun t => decide (t ≥ tl) && decide (t ≤ tr))
          if vec = [] then none else some (vec.sum / (vec.length : ℝ))
        let averaged : List IntersectionPair :=
          match curve_roots c1 t1l t1r, curve_roots c2 t2l t2r with
          | some r1, some r2 => [⟨r1, r2⟩]
          | _, _ => []
        endpoints ++ contained ++ averaged

/-- The `windows(2)` pairs of a critical-point list. -/
def windowsPairs (l : List ℝ) : List (ℝ × ℝ) :=
  (List.range (l.length - 1)).map fun i => (l.getD i 0, l.getD (i + 1) 0)

/-- `intersection_generic` (intersection.rs, lines 103–110). -/
noncomputable def intersection_generic (fuel : Nat) (c1 c2 : Curve) (cp1 cp2 : List ℝ) :
    List IntersectionPair :=
  (windowsPairs cp1).flatMap fun i1 =>
    (windowsPairs cp2).flatMap fun i2 =>
      intersection_generic_monotonous c1 c2 fuel i1.1 i1.2 i2.1 i2.2

/-- `intersection` (intersection.rs, lines 13–45): dispatch on the curve kinds;
line/curve projects the curve hit onto the segment (`pos` is unclamped),
line/line uses the closed form.  `fuel` bounds the generic recursion only. -/
noncomputable def intersection_pairs (fuel : Nat) (curve1 curve2 : Curve)
    (cp1 cp2 : List ℝ) : List IntersectionPair :=
  match curve1, curve2 with
  | .line l1, .line l2 => intersection_line_line l1 l2
  | .line l1, c2 =>
    ((c2.intersection_seg l1.a l1.b).filter (fun t => inside01 t)).map fun root =>
      let df := l1.b - l1.a
      let pos := df.dot (c2.pointAt root - l1.a) / df.length_sq
      ⟨pos, root⟩
  | c1, .line l2 =>
    ((c1.intersection_seg l2.a l2.b).filter (fun t => inside01 t)).map fun root =>
      let df := l2.b - l2.a
      let pos := df.dot (c1.pointAt root - l2.a) / df.length_sq
      ⟨root, pos⟩
  | c1, c2 => intersection_generic fuel c1 c2 cp1 cp2

/-- The filter `split_comps` applies to every intersection pair before using it
(path/splitting.rs, lines 40–43): only pairs with both parameters `inside01`
are inserted into the intersection maps. -/
noncomputable def retained_intersections (fuel : Nat) (c1 c2 : Curve) (cp1 cp2 : List ℝ) :
    List IntersectionPair :=
  (intersection_pairs fuel c1 c2 cp1 cp2).filter fun p => inside01 p.t1 && inside01 p.t2

/-!  ### C6: `simplify_cubic_bezier` (curve/simplification.rs, lines 68–142)  -/

/-- `simplify_cubic_bezier`, returning the curves pushed to `out`. -/
noncomputable def simplify_cubic_bezier (c : CubicBezier) : List Curve :=
  if c.a.roughly_equals c.b && c.c.roughly_equals c.d then
    [.line ⟨(c.a + c.b) / (2 : ℝ), (c.c + c.d) / (2 : ℝ)⟩]
  else if (c.a.roughly_equals c.b ||
        roughly_zero (((c.b - c.a).normalized).cross ((c.c - c.b).normalized))) &&
      (c.a.roughly_equals c.b ||
        roughly_zero (((c.d - c.c).normalized).cross ((c.c - c.b).normalized))) then
    let roots := (c.derivative).intersection_x 0
    let vec := (roots ++ [0, 1]).filter fun t => inside01 t
    let vec := vec.insertionSort (· ≤ ·)
    (List.range vec.length).filterMap fun i =>
      if 1 ≤ i then
        some (.line ⟨c.pointAt (vec.getD (i - 1) 0), c.pointAt (vec.getD i 0)⟩)
      else none
  else if (c.a - (3 : ℝ) • c.b + (3 : ℝ) • c.c - c.d).roughly_zero then
    let b1 := (3 : ℝ) • c.b - c.a
    let b2 := (3 : ℝ) • c.c - c.d
    [.quadraticBezier ⟨c.a, (b1 + b2) / (4 : ℝ), c.c⟩]
  else
    let roots0 : List ℝ := [0, 1]
    let da := c.b - c.a
    let db := c.c - c.b
    let dc := c.d - c.c
    let ab := da.cross db
    let ac := da.cross dc
    let bc := db.cross dc
    let roots1 :=
      if ac * ac ≤ 4 * ab * bc then
        let c3 := da + dc - (2 : ℝ) • db
        let rotated :=
          if !(roughly_zero c3.y) then
            let c3r : Vec2 ℝ := ⟨c3.x, -c3.y⟩
            let da' := da.rot_scale c3r
            let db' := db.rot_scale c3r
            let dc' := dc.rot_scale c3r
            (da', db', da' + dc' - (2 : ℝ) • db')
          else (da, db, c3)
        let c2 := (3 : ℝ) • (rotated.2.1 - rotated.1)
        let c1 := (3 : ℝ) • rotated.1
        let bb := -c1.y / c2.y
        let s1 := c1.x / rotated.2.2.x
        let s2 := c2.x / rotated.2.2.x
        roots0 ++ find_roots_quadratic 1 (-bb) (bb * (bb + s2) + s1)
      else roots0
    let axby := c.a.x * c.b.y
    let axcy := c.a.x * c.c.y
    let axdy := c.a.x * c.d.y
    let bxay := c.b.x * c.a.y
    let bxcy := c.b.x * c.c.y
    let bxdy := c.b.x * c.d.y
    let cxay := c.c.x * c.a.y
    let cxby := c.c.x * c.b.y
    let cxdy := c.c.x * c.d.y
    let dxay := c.d.x * c.a.y
    let dxby := c.d.x * c.b.y
    let dxcy := c.d.x * c.c.y
    let k2 := axby - 2 * axcy + axdy - bxay + 3 * bxcy - 2 * bxdy + 2 * cxay - 3 * cxby +
      cxdy - dxay + 2 * dxby - dxcy
    let k1 := -2 * axby + 3 * axcy - axdy + 2 * bxay - 3 * bxcy + bxdy - 3 * cxay +
      3 * cxby + dxay - dxby
    let k0 := axby - axcy - bxay + bxcy + cxay - cxby
    let roots2 := roots1 ++ find_roots_quadratic k2 k1 k0
    let roots3 := (roots2.filter fun t => inside01 t).insertionSort (· ≤ ·)
    (List.range roots3.length).filterMap fun i =>
      if 1 ≤ i then some (.cubicBezier (c.subcurve (roots3.getD (i - 1) 0) (roots3.getD i 0)))
      else none

/-!  ### The DCEL (path/dcel.rs)

The DCEL's combinatorial state is generic in the stored curve type `C` and
the angle-key type `K`: `Dcel` only ever consumes curves through the
operations that `add_curve_canonicity` calls (`reverse`, `angle_key`,
`at`, `winding`, `intersection_y`), bundled in `CurveOps` — this mirrors the
`forward_to_curves!` dispatch of curve/mod.rs.  `remove_wedges`,
`assign_face_fill_numbers` and `simplify_faces` never touch curves or
vertex maps at all. -/

/-- `FillRule` (path/path_enums.rs). -/
inductive FillRule
  | evenOdd
  | nonZero
deriving DecidableEq, Repr

/-- `Edge` (dcel.rs): `Edge::new` initialises `next`/`prev`/`canonicity`/`face` to 0. -/
structure DEdge (C : Type) where
  curve : C
  twin : Nat
  next : Nat
  prev : Nat
  canonicity : Int
  face : Nat
deriving DecidableEq, Repr

/-- `Face` (dcel.rs). -/
structure DFace where
  contours : List Nat
  fill_number : Int
  is_outer : Bool
deriving DecidableEq, Repr

/-- `Dcel` (dcel.rs): vertices hold the `out_edges` BTreeMap as a sorted
association list. -/
structure Dcel (C K : Type) where
  vertices : List (List (K × Nat))
  edges : List (DEdge C)
  faces : List DFace

instance {C : Type} [Inhabited C] : Inhabited (DEdge C) := ⟨⟨default, 0, 0, 0, 0, 0⟩⟩

/-- The curve operations `add_curve_canonicity` consumes, plus the total
`Ord` on angle keys backing the vertex BTreeMaps. -/
structure CurveOps (α : Type) [LinearOrderedField α] (C K : Type) where
  reverse : C → C
  angle_key : C → K
  evalAt : C → α → Vec2 α
  winding : C → α
  intersection_y : C → α → List α
  kcmp : K → K → Ordering

namespace Dcel

variable {C K : Type} [Inhabited C]

/-- `Dcel::new`. -/
def new_ (C K : Type) (num_pts : Nat) : Dcel C K :=
  ⟨List.replicate num_pts [], [], [⟨[], 0, true⟩]⟩

/-- Indexing `self.edges[i]` (panics in the source when out of bounds). -/
def getEdge (d : Dcel C K) (i : Nat) : DEdge C := d.edges.getD i default

/-- Indexing `self.faces[i]`. -/
def getFace (d : Dcel C K) (i : Nat) : DFace := d.faces.getD i ⟨[], 0, false⟩

/-- `self.edges[i].next = n`. -/
def setEdgeNext (d : Dcel C K) (i n : Nat) : Dcel C K :=
  { d with edges := d.edges.set i { d.getEdge i with next := n } }

/-- `self.edges[i].prev = p`. -/
def setEdgePrev (d : Dcel C K) (i p : Nat) : Dcel C K :=
  { d with edges := d.edges.set i { d.getEdge i with prev := p } }

/-- `self.edges[i].face = f`. -/
def setEdgeFace (d : Dcel C K) (i f : Nat) : Dcel C K :=
  { d with edges := d.edges.set i { d.getEdge i with face := f } }

/-- `self.edges[i].canonicity += delta`. -/
def addEdgeCanon (d : Dcel C K) (i : Nat) (delta : Int) : Dcel C K :=
  { d with edges := d.edges.set i ({ d.getEdge i with canonicity := (d.getEdge i).canonicity + delta }) }

/-- Replace `self.faces[f].contours`. -/
def setFaceContours (d : Dcel C K) (f : Nat) (cs : List Nat) : Dcel C K :=
  { d with faces := d.faces.set f { d.getFace f with contours := cs } }

/-- `self.vertices[v] = m`. -/
def setVertexMap (d : Dcel C K) (v : Nat) (m : List (K × Nat)) : Dcel C K :=
  { d with vertices := d.vertices.set v m }

/-- `self.faces.push(face)`. -/
def pushFace (d : Dcel C K) (fc : DFace) : Dcel C K :=
  { d with faces := d.faces ++ [fc] }

/-- `Dcel::pair_of_edges`: push the curve and its reverse as mutual twins. -/
def pushPair (d : Dcel C K) (curve rev : C) : Dcel C K :=
  let len := d.edges.length
  { d with edges := d.edges ++ [⟨curve, len + 1, 0, 0, 0, 0⟩, ⟨rev, len, 0, 0, 0, 0⟩] }

end Dcel

/-- The loop body of `EdgeLoopIterator` (dcel.rs, lines 593–604): walk `next`
from `cur` until returning to `first`.  The source iterator diverges when the
loop never closes; the fuel (instantiated with `edges.length`, enough for
every simple cycle) models that. -/
def edge_loop_from {C : Type} [Inhabited C] (edges : List (DEdge C)) (first : Nat) :
    Nat → Nat → List Nat
  | 0, _ => []
  | fuel + 1, cur =>
    cur :: (let nxt := (edges.getD cur default).next
      if nxt = first then [] else edge_loop_from edges first fuel nxt)

/-- `edge_loop_iter` (dcel.rs). -/
def edge_loop_iter {C : Type} [Inhabited C] (edges : List (DEdge C)) (first : Nat) :
    List Nat :=
  edge_loop_from edges first edges.length first

/-- `bool_vec` (dcel.rs, lines 627–631). -/
def bool_vec (sz : Nat) (values : List Nat) : List Bool :=
  values.foldl (fun v i => v.set i true) (List.replicate sz false)

/-- Consecutive deduplication of a sorted list (`Vec::dedup` after `sort`). -/
def dedup_sorted : List Nat → List Nat
  | [] => []
  | [a] => [a]
  | a :: b :: rest => if a = b then dedup_sorted (b :: rest) else a :: dedup_sorted (b :: rest)

/-- `RemoveIndices::remove_indices` (vec_utils.rs, lines 34–57): compact the
vector by skipping the listed positions.  The source reads `indices[k]` even
when `k` has run past the end (a panic); that read is modelled by `get?`
returning `none`, which never matches — all runs below keep `k` in bounds. -/
def remove_indices {β : Type} [Inhabited β] (l : List β) (indices : List Nat) : List β :=
  if indices = [] then l
  else
    let len := l.length
    let inds := dedup_sorted (indices.insertionSort (· ≤ ·))
    let ik0 := inds.getD 0 0
    let st := (List.range' (ik0 + 1) (len - (ik0 + 1))).foldl
      (fun (st : List β × Nat × Nat) i =>
        if inds.get? st.2.2 = some i then (st.1, st.2.1, st.2.2 + 1)
        else ((st.1.set st.2.1 (st.1.getD i default)), st.2.1 + 1, st.2.2))
      (l, ik0, 1)
    st.1.take (len - st.2.2)

/-!  Vertex-map (BTreeMap) operations, over an `Ordering`-valued comparator. -/

/-- `BTreeMap::contains_key` on the sorted association list. -/
def vmap_contains {K : Type} (kcmp : K → K → Ordering) (m : List (K × Nat)) (k : K) :
    Bool :=
  m.any fun e => kcmp e.1 k == .eq

/-- `BTreeMap::insert` keeping the list sorted (replacing an equal key). -/
def vmap_insert {K : Type} (kcmp : K → K → Ordering) (m : List (K × Nat)) (k : K)
    (v : Nat) : List (K × Nat) :=
  match m with
  | [] => [(k, v)]
  | e :: rest =>
    match kcmp k e.1 with
    | .lt => (k, v) :: e :: rest
    | .eq => (k, v) :: rest
    | .gt => e :: vmap_insert kcmp rest k v

/-- `BTreeMap::get` / `Vertex::search`. -/
def vmap_search {K : Type} (kcmp : K → K → Ordering) (m : List (K × Nat)) (k : K) :
    Option Nat :=
  (m.find? fun e => kcmp e.1 k == .eq).map (·.2)

/-- `Vertex::search_outgoing` (dcel.rs, lines 24–35): the cyclically previous
and next entries around `key` (`None` when the map is empty or already
contains the key). -/
def vmap_search_outgoing {K : Type} (kcmp : K → K → Ordering) (m : List (K × Nat))
    (k : K) : Option (Nat × Nat) :=
  if m.isEmpty || vmap_contains kcmp m k then none
  else
    let before := ((m.filter fun e => kcmp e.1 k == .lt).getLast?).orElse fun _ => m.getLast?
    let after := ((m.filter fun e => kcmp e.1 k == .gt).head?).orElse fun _ => m.head?
    match before, after with
    | some b, some a => some (b.2, a.2)
    | _, _ => none

namespace Dcel

variable {α : Type} [LinearOrderedField α] {C K : Type} [Inhabited C]

/-- `Dcel::face_contains_vertex` (dcel.rs, lines 554–573): parity of ray-curve
crossings over every non-bridge edge of every contour, seeded with `is_outer`. -/
def face_contains_vertex (ops : CurveOps α C K) (d : Dcel C K) (face : Nat)
    (v : Vec2 α) : Bool :=
  (d.getFace face).contours.foldl (fun contains contour =>
    (edge_loop_iter d.edges contour).foldl (fun contains e =>
      let ed := d.getEdge e
      if ed.face = (d.getEdge ed.twin).face then contains
      else
        (ops.intersection_y ed.curve v.y).foldl (fun contains t =>
          if decide (t ≥ 0) && decide (t < 1) && decide ((ops.evalAt ed.curve t).x ≥ v.x)
          then !contains else contains) contains) contains)
    (d.getFace face).is_outer

/-- `Dcel::get_face_from_point` (dcel.rs, lines 538–543): first face containing
the point; the source hits `unreachable!()` when there is none — modelled by
the `getD 0` default. -/
def get_face_from_point (ops : CurveOps α C K) (d : Dcel C K) (v : Vec2 α) : Nat :=
  ((List.range d.faces.length).find? fun i => face_contains_vertex ops d i v).getD 0

/-- `Dcel::assign_face` (dcel.rs, lines 575–580): set the face of every edge on
the loop (the loop is computed over the untouched `next` pointers, exactly as
the unsafe iterator requires). -/
def assign_face (d : Dcel C K) (face edge : Nat) : Dcel C K :=
  (edge_loop_iter d.edges edge).foldl (fun d e => d.setEdgeFace e face) d

/-- Case 1 of `add_curve_canonicity` (dcel.rs, lines 153–207): both vertices
are new. -/
def acc_both_new (ops : CurveOps α C K) (d : Dcel C K) (v1 v2 : Nat) (curve : C)
    (canonicity_change : Int) (ak1 ak2 : K) : Dcel C K :=
  let p0 := ops.evalAt curve (1 / 2)
  let face := get_face_from_point ops d p0
  let e1 := d.edges.length
  let e2 := e1 + 1
  let d := d.pushPair curve (ops.reverse curve)
  let d := d.addEdgeCanon e1 canonicity_change
  let d :=
    if v1 ≠ v2 then
      let d := d.setEdgeNext e1 e2
      let d := d.setEdgePrev e1 e2
      let d := d.setEdgeNext e2 e1
      let d := d.setEdgePrev e2 e1
      let d := d.setEdgeFace e1 face
      let d := d.setEdgeFace e2 face
      d.setFaceContours face ((d.getFace face).contours ++ [e1])
    else
      -- case 1a: self-loop on a fresh vertex
      let d := d.setEdgeNext e1 e1
      let d := d.setEdgePrev e1 e1
      let d := d.setEdgeNext e2 e2
      let d := d.setEdgePrev e2 e2
      let new_face := d.faces.length
      let d := d.pushFace ⟨[], 0, false⟩
      let pr := if ops.winding (d.getEdge e1).curve > 0 then (e1, e2) else (e2, e1)
      let d := d.setFaceContours new_face ((d.getFace new_face).contours ++ [pr.1])
      let d := d.setEdgeFace pr.1 new_face
      let part := (d.getFace face).contours.partition fun e =>
        face_contains_vertex ops d face (ops.evalAt (d.getEdge e).curve (1 / 2))
      let d := d.setFaceContours face part.1
      let d := part.2.foldl (fun d c => assign_face d new_face c) d
      let d := d.setFaceContours new_face ((d.getFace new_face).contours ++ part.2)
      let d := d.setFaceContours face ((d.getFace face).contours ++ [pr.2])
      d.setEdgeFace pr.2 face
  let d := d.setVertexMap v1 (vmap_insert ops.kcmp (d.vertices.getD v1 []) ak1 e1)
  d.setVertexMap v2 (vmap_insert ops.kcmp (d.vertices.getD v2 []) ak2 e2)

/-- Cases 2/3 of `add_curve_canonicity` (dcel.rs, lines 209–298): both
vertices already have outgoing edges and the angle key is new at `v1`. -/
def acc_both_found (ops : CurveOps α C K) (d : Dcel C K) (v1 v2 : Nat) (curve : C)
    (canonicity_change : Int) (ak1 ak2 : K) (e1lo e1ro : Nat) : Dcel C K :=
  let e1 := d.edges.length
  let e2 := e1 + 1
  let d := d.pushPair curve (ops.reverse curve)
  let d := d.addEdgeCanon e1 canonicity_change
  -- the source `unwrap()`s this search (a panic when the reverse key exists)
  let so2 := (vmap_search_outgoing ops.kcmp (d.vertices.getD v2 []) ak2).getD (0, 0)
  let e2lo := so2.1
  let e2ro := so2.2
  let t1ro := (d.getEdge e1ro).twin
  let t2ro := (d.getEdge e2ro).twin
  -- computed before the rewiring below, exactly as the source warns
  let diff_contours := !((edge_loop_iter d.edges e1lo).contains e2lo)
  let d :=
    if v1 = v2 ∧ e1lo = e2lo ∧ e1ro = e2ro then
      let pr := if ops.winding (d.getEdge e1).curve > 0 then (e1, e2) else (e2, e1)
      let d := d.setEdgeNext pr.1 pr.1
      let d := d.setEdgePrev pr.1 pr.1
      let d := d.setEdgeNext t1ro pr.2
      let d := d.setEdgePrev e1lo pr.2
      let d := d.setEdgeNext pr.2 e1lo
      d.setEdgePrev pr.2 t1ro
    else
      let d := d.setEdgeNext t1ro e1
      let d := d.setEdgePrev e2lo e1
      let d := d.setEdgeNext t2ro e2
      let d := d.setEdgePrev e1lo e2
      let d := d.setEdgeNext e1 e2lo
      let d := d.setEdgePrev e1 t1ro
      let d := d.setEdgeNext e2 e1lo
      d.setEdgePrev e2 t2ro
  let d := d.setVertexMap v1 (vmap_insert ops.kcmp (d.vertices.getD v1 []) ak1 e1)
  let d := d.setVertexMap v2 (vmap_insert ops.kcmp (d.vertices.getD v2 []) ak2 e2)
  if diff_contours then
    let face := (d.getEdge e1lo).face
    let d := d.setEdgeFace e1 face
    let d := d.setEdgeFace e2 face
    let edset := bool_vec d.edges.length (edge_loop_iter d.edges e1)
    let d := d.setFaceContours face
      ((d.getFace face).contours.filter fun e => !(edset.getD e false))
    d.setFaceContours face ((d.getFace face).contours ++ [e1])
  else
    let new_face := d.faces.length
    let d := d.pushFace ⟨[], 0, false⟩
    let old_face := (d.getEdge e1lo).face
    let edset := bool_vec d.edges.length
      (edge_loop_iter d.edges e1 ++ edge_loop_iter d.edges e2)
    let d := d.setFaceContours old_face
      ((d.getFace old_face).contours.filter fun e => !(edset.getD e false))
    let wsum := ((edge_loop_iter d.edges e1).map fun e =>
      ops.winding (d.getEdge e).curve).sum
    let pr := if wsum > 0 then (e1, e2) else (e2, e1)
    let d := assign_face d new_face pr.1
    let d := d.setFaceContours new_face ((d.getFace new_face).contours ++ [pr.1])
    let part := (d.getFace old_face).contours.partition fun e =>
      face_contains_vertex ops d old_face (ops.evalAt (d.getEdge e).curve (1 / 2))
    let d := d.setFaceContours old_face part.1
    let d := part.2.foldl (fun d c => assign_face d new_face c) d
    let d := d.setFaceContours new_face ((d.getFace new_face).contours ++ part.2)
    let d := assign_face d old_face pr.2
    d.setFaceContours old_face ((d.getFace old_face).contours ++ [pr.2])

/-- Case 4 of `add_curve_canonicity` (dcel.rs, lines 304–337): exactly one
vertex already has outgoing edges. -/
def acc_one_found (ops : CurveOps α C K) (d : Dcel C K) (v1 v2 : Nat) (curve : C)
    (canonicity_change : Int) (ak1 ak2 : K) (found1 : Bool) : Dcel C K :=
  let e1 := d.edges.length
  let e2 := e1 + 1
  let d := d.pushPair curve (ops.reverse curve)
  let d := d.addEdgeCanon e1 canonicity_change
  let e1s := if found1 then e1 else e2
  let e2s := if found1 then e2 else e1
  let v1s := if found1 then v1 else v2
  let v2s := if found1 then v2 else v1
  let ak1s := if found1 then ak1 else ak2
  let ak2s := if found1 then ak2 else ak1
  let so := (vmap_search_outgoing ops.kcmp (d.vertices.getD v1s [])
    (ops.angle_key (d.getEdge e1s).curve)).getD (0, 0)
  let e1lo := so.1
  let e1ro := so.2
  let t1ro := (d.getEdge e1ro).twin
  let d := d.setEdgePrev e1s t1ro
  let d := d.setEdgeNext e1s e2s
  let d := d.setEdgePrev e2s e1s
  let d := d.setEdgeNext e2s e1lo
  let d := d.setEdgeNext t1ro e1s
  let d := d.setEdgePrev e1lo e2s
  let fc := (d.getEdge e1lo).face
  let d := d.setEdgeFace e1s fc
  let d := d.setEdgeFace e2s fc
  let d := d.setVertexMap v1s (vmap_insert ops.kcmp (d.vertices.getD v1s []) ak1s e1s)
  d.setVertexMap v2s (vmap_insert ops.kcmp (d.vertices.getD v2s []) ak2s e2s)

/-- `Dcel::add_curve_canonicity` (dcel.rs, lines 132–340): dispatch over the
four cases of the source, each translated in the `acc_*` definition above. -/
def add_curve_canonicity (ops : CurveOps α C K) (d : Dcel C K) (v1 v2 : Nat)
    (curve : C) (canonicity_change : Int) : Dcel C K :=
  let found1 := !(d.vertices.getD v1 []).isEmpty
  let found2 := !(d.vertices.getD v2 []).isEmpty
  let ak1 := ops.angle_key curve
  let ak2 := ops.angle_key (ops.reverse curve)
  if !found1 && !found2 then
    acc_both_new ops d v1 v2 curve canonicity_change ak1 ak2
  else if found1 && found2 then
    match vmap_search_outgoing ops.kcmp (d.vertices.getD v1 []) ak1 with
    | some (e1lo, e1ro) =>
      acc_both_found ops d v1 v2 curve canonicity_change ak1 ak2 e1lo e1ro
    | none =>
      -- a matching angle key exists at v1: only bump canonicity
      let e1 := (vmap_search ops.kcmp (d.vertices.getD v1 []) ak1).getD 0
      d.addEdgeCanon e1 canonicity_change
  else
    acc_one_found ops d v1 v2 curve canonicity_change ak1 ak2 found1

/-- `Dcel::add_curve`: canonicity delta 1. -/
def add_curve (ops : CurveOps α C K) (d : Dcel C K) (v1 v2 : Nat) (curve : C) :
    Dcel C K :=
  add_curve_canonicity ops d v1 v2 curve 1

/-- `Dcel::is_wedge` (dcel.rs, lines 345–348). -/
def is_wedge (d : Dcel C K) (edge : Nat) : Bool :=
  ((edge_loop_iter d.edges edge).takeWhile fun e => e ≠ (d.getEdge e).twin).all
    fun e => (d.getEdge e).face = (d.getEdge (d.getEdge e).twin).face

/-- The inner `while` of `remove_wedges` (dcel.rs, lines 367–376): walk `prev`
while the edge shares its face with its twin.  `.inl e` signals the
`break 'outer` needle case (push `e` to `indices`), `.inr e` the found wedge
start.  The source can loop forever on malformed states; fuel models that. -/
def wedge_walk (d : Dcel C K) : Nat → Nat → Sum Nat Nat
  | 0, e => .inr e
  | fuel + 1, e =>
    if (d.getEdge e).face = (d.getEdge (d.getEdge e).twin).face then
      if (d.getEdge e).prev = (d.getEdge e).twin then .inl e
      else wedge_walk d fuel (d.getEdge e).prev
    else .inr e

/-- The `while !set[e]` loop of `remove_wedges` (dcel.rs, lines 362–389),
with fuel; returns the updated DCEL, the accumulated purge `indices` and the
`break 'outer` flag. -/
def rw_while (d : Dcel C K) (j i : Nat) :
    Nat → List Bool → Nat → List Nat → Dcel C K × List Nat × Bool
  | 0, _, _, inds => (d, inds, false)
  | fuel + 1, set0, e, inds =>
    if set0.getD e false then (d, inds, false)
    else
      let set1 := set0.set e true
      if is_wedge d e then
        match wedge_walk d d.edges.length e with
        | .inl e1 => (d, inds ++ [e1], true)
        | .inr e1 =>
          let en := (d.getEdge e1).next
          let en := (d.getEdge en).twin
          let en := (d.getEdge en).next
          let d := d.setEdgeNext e1 en
          let d := d.setEdgePrev en e1
          let d := d.setFaceContours j ((d.getFace j).contours.set i e1)
          rw_while d j i fuel set1 e1 inds
      else rw_while d j i fuel set1 e inds

/-- One face of `Dcel::remove_wedges` (dcel.rs, lines 352–394): process every
contour (stopping at a `break 'outer`), then purge the collected indices. -/
def rw_face (d : Dcel C K) (j : Nat) : Dcel C K :=
  let n := (d.getFace j).contours.length
  let res := (List.range n).foldl
    (fun (st : Dcel C K × List Nat × Bool) i =>
      if st.2.2 then st
      else
        let e0 := (st.1.getFace j).contours.getD i 0
        rw_while st.1 j i (2 * st.1.edges.length + 2)
          (List.replicate st.1.edges.length false) e0 st.2.1)
    (d, [], false)
  res.1.setFaceContours j (remove_indices ((res.1.getFace j).contours) res.2.1)

/-- `Dcel::remove_wedges` (dcel.rs, lines 350–397). -/
def remove_wedges (d : Dcel C K) : Dcel C K :=
  (List.range d.faces.length).foldl rw_face d

/-!  `Dcel::assign_face_fill_numbers` (dcel.rs, lines 399–433).  -/

/-- The BFS state: face fill numbers, the `already_assigned_faces` flags and
the iteration queue. -/
structure BfsSt where
  fills : List Int
  assigned : List Bool
  queue : List Nat
deriving DecidableEq, Repr

/-- The loop body over one half-edge (dcel.rs, lines 416–427). -/
def bfs_process_edge (d : Dcel C K) (face : Nat) (st : BfsSt) (e : Nat) : BfsSt :=
  let t := (d.getEdge e).twin
  let tf := (d.getEdge t).face
  if st.assigned.getD tf false then st
  else
    let fill := st.fills.getD face 0 - (d.getEdge e).canonicity + (d.getEdge t).canonicity
    ⟨st.fills.set tf fill, st.assigned.set tf true, st.queue ++ [tf]⟩

/-- Process every edge of every contour of a popped face (dcel.rs, 414–429). -/
def bfs_process_face (d : Dcel C K) (face : Nat) (st : BfsSt) : BfsSt :=
  (d.getFace face).contours.foldl
    (fun st c => (edge_loop_iter d.edges c).foldl (bfs_process_edge d face) st) st

/-- The `while !iteration_queue.is_empty()` loop.  Each pushed face is fresh
(its `assigned` flag is set with the push), so the number of pops — and hence
the fuel `d.faces.length` used below — is bounded by the face count. -/
def bfs_loop (d : Dcel C K) : Nat → BfsSt → BfsSt
  | 0, st => st
  | fuel + 1, st =>
    match st.queue with
    | [] => st
    | f :: rest => bfs_loop d fuel (bfs_process_face d f ⟨st.fills, st.assigned, rest⟩)

/-- The BFS of `assign_face_fill_numbers`, returning the full final state. -/
def assign_fills_state (d : Dcel C K) : BfsSt :=
  bfs_loop d d.faces.length
    ⟨d.faces.map (·.fill_number), (List.replicate d.faces.length false).set 0 true, [0]⟩

/-- `Dcel::assign_face_fill_numbers`: write the BFS fills back into the faces. -/
def assign_face_fill_numbers (d : Dcel C K) : Dcel C K :=
  let st := assign_fills_state d
  { d with faces := (List.range d.faces.length).map fun i =>
      { d.getFace i with fill_number := st.fills.getD i 0 } }

/-!  `Dcel::simplify_faces` (dcel.rs, lines 435–517).  -/

/-- `Dcel::face_visible` (dcel.rs, lines 531–536). -/
def face_visible (d : Dcel C K) (face : Nat) (rule : FillRule) : Bool :=
  match rule with
  | .evenOdd => decide ((d.getFace face).fill_number % 2 ≠ 0)
  | .nonZero => decide ((d.getFace face).fill_number ≠ 0)

/-- The marking loop of `simplify_faces` (dcel.rs, lines 439–450), verbatim:
note that the same-visibility arm writes `false` into the already-all-false
vector (`edges_to_remove[e] = false;`). -/
def edges_to_remove (d : Dcel C K) (rule : FillRule) : List Bool :=
  (List.range d.edges.length).foldl
    (fun acc e =>
      let t := (d.getEdge e).twin
      if acc.getD t false then acc
      else if face_visible d (d.getEdge e).face rule = face_visible d (d.getEdge t).face rule
      then acc.set e false
      else acc)
    (List.replicate d.edges.length false)

/-- The removal body of `simplify_faces` for one marked edge
(dcel.rs, lines 453–514). -/
def simplify_remove_step (d : Dcel C K) (e : Nat) : Dcel C K :=
  let t := (d.getEdge e).twin
  let ep := (d.getEdge e).prev
  let en := (d.getEdge e).next
  let tp := (d.getEdge t).prev
  let tn := (d.getEdge t).next
  let d := if ep ≠ t then (d.setEdgeNext ep tn).setEdgePrev tn ep else d
  let d := if en ≠ t then (d.setEdgePrev en tp).setEdgeNext tp en else d
  if (d.getEdge e).face = (d.getEdge t).face then
    let fc := (d.getEdge e).face
    let set0 := List.replicate d.edges.length false
    let set1 := if en ≠ t then (edge_loop_iter d.edges en).foldl (fun s x => s.set x true) set0
      else set0
    let set2 := if ep ≠ t then (edge_loop_iter d.edges ep).foldl (fun s x => s.set x true) set1
      else set1
    let contours := (d.getFace fc).contours.filter fun c => !(set2.getD c false)
    let contours := contours ++ (if ep ≠ t then [ep] else []) ++ (if en ≠ t then [en] else [])
    d.setFaceContours fc contours
  else
    let et := if ep ≠ t then ep else en
    let eset := bool_vec d.edges.length (edge_loop_iter d.edges et)
    let eset := (eset.set e true).set t true
    let keep0 := (d.getEdge e).face
    let rem0 := (d.getEdge t).face
    let pr := if (d.getFace rem0).is_outer then (rem0, keep0) else (keep0, rem0)
    let keep := pr.1
    let rem := pr.2
    let d := d.setFaceContours keep
      ((d.getFace keep).contours.filter fun c => !(eset.getD c false))
    let d := d.setFaceContours rem
      ((d.getFace rem).contours.filter fun c => !(eset.getD c false))
    let d := (d.getFace rem).contours.foldl (fun d c => assign_face d keep c) d
    let old := (d.getFace rem).contours
    let d := d.setFaceContours rem []
    let d := d.setFaceContours keep ((d.getFace keep).contours ++ old ++ [et])
    assign_face d keep et

/-- `Dcel::simplify_faces`: remove every marked edge in index order. -/
def simplify_faces (d : Dcel C K) (rule : FillRule) : Dcel C K :=
  let marks := edges_to_remove d rule
  ((List.range d.edges.length).filter fun i => marks.getD i false).foldl
    simplify_remove_step d

end Dcel

/-!  ### Concrete instantiations used by the DCEL theorems  -/

instance : Inhabited Line := ⟨⟨⟨0, 0⟩, ⟨0, 0⟩⟩⟩

/-- Lexicographic comparison of `(θ, θ', θ'')` triples: the derived `Ord` of
`AngleKey` over `OrderedFloat` restricted to non-NaN floats. -/
noncomputable def cmpKey3 (a b : ℝ × ℝ × ℝ) : Ordering :=
  match cmpCoord a.1 b.1 with
  | .eq =>
    match cmpCoord a.2.1 b.2.1 with
    | .eq => cmpCoord a.2.2 b.2.2
    | o => o
  | o => o

/-- The `CurveOps` record realised by the `Line` variant (curve/line.rs):
`Line::reverse`, `Line::angle_key` (`(angle_facing, 0, 0)`), `Line::at`,
`Line::winding`, `Line::intersection_y`. -/
noncomputable def lineOpsR : CurveOps ℝ Line (ℝ × ℝ × ℝ) where
  reverse := Line.reverse
  angle_key := fun l => (l.a.angle_facing l.b, 0, 0)
  evalAt := Line.pointAt
  winding := Line.winding
  intersection_y := Line.intersection_y
  kcmp := cmpKey3

/-- The single-segment DCEL of claim C1: `Dcel::new(2)` followed by
`add_curve(0, 1, Line((0,0),(1,0)))` — the state the repo's own
`test_simple_face` unit test checks after its first insertion. -/
noncomputable def needle_dcel : Dcel Line (ℝ × ℝ × ℝ) :=
  Dcel.add_curve lineOpsR (Dcel.new_ Line (ℝ × ℝ × ℝ) 2) 0 1 ⟨⟨0, 0⟩, ⟨1, 0⟩⟩

/-- `remove_wedges` applied to the single-segment DCEL. -/
noncomputable def needle_after : Dcel Line (ℝ × ℝ × ℝ) := Dcel.remove_wedges needle_dcel

/-- A trivial `CurveOps` instance over `ℚ` with unit curves and keys, used
only to exercise the combinatorial layer at concrete inputs. -/
def unitOpsQ : CurveOps ℚ Unit Unit where
  reverse := id
  angle_key := fun _ => ()
  evalAt := fun _ _ => Vec2.zero
  winding := fun _ => 0
  intersection_y := fun _ _ => []
  kcmp := fun _ _ => .eq

/-- A triangle DCEL (the combinatorial state the repo's `test_simple_face`
unit test certifies: loops `[0,2,4]` and `[1,5,3]`, two faces) whose
canonicities `1, 2, 1` were produced by public `add_curve_canonicity` calls
with deltas `1, 2, 1`; the deltas are inconsistent, so no fill-number
potential exists. -/
def badFillDcel : Dcel Unit Unit where
  vertices := []
  edges :=
    [⟨(), 1, 2, 4, 1, 1⟩, ⟨(), 0, 5, 3, 0, 0⟩,
     ⟨(), 3, 4, 0, 2, 1⟩, ⟨(), 2, 1, 5, 0, 0⟩,
     ⟨(), 5, 0, 2, 1, 1⟩, ⟨(), 4, 3, 1, 0, 0⟩]
  faces := [⟨[1], 0, true⟩, ⟨[0], 0, false⟩]

/-- The same triangle DCEL with consistent canonicities `1, 1, 1`. -/
def goodFillDcel : Dcel Unit Unit where
  vertices := []
  edges :=
    [⟨(), 1, 2, 4, 1, 1⟩, ⟨(), 0, 5, 3, 0, 0⟩,
     ⟨(), 3, 4, 0, 1, 1⟩, ⟨(), 2, 1, 5, 0, 0⟩,
     ⟨(), 5, 0, 2, 1, 1⟩, ⟨(), 4, 3, 1, 0, 0⟩]
  faces := [⟨[1], 0, true⟩, ⟨[0], 0, false⟩]

/-- The fill-number relation of claim C2 at one half-edge. -/
def fill_invariant_at {C K : Type} [Inhabited C] (d : Dcel C K) (e : Nat) : Prop :=
  (d.getFace (d.getEdge (d.getEdge e).twin).face).fill_number -
      (d.getFace (d.getEdge e).face).fill_number =
    (d.getEdge (d.getEdge e).twin).canonicity - (d.getEdge e).canonicity

instance {C K : Type} [Inhabited C] (d : Dcel C K) (e : Nat) :
    Decidable (fill_invariant_at d e) := by
  unfold fill_invariant_at; infer_instance

/-- The structural well-formedness hypotheses used by the amended claim C2:
the outer face exists, twin/face indices are in bounds, and every contour of
every face is a closed `next`-loop lying on that face. -/
def DcelWF {C K : Type} [Inhabited C] (d : Dcel C K) : Prop :=
  0 < d.faces.length ∧
  (∀ e ∈ List.range d.edges.length,
    (d.getEdge e).twin < d.edges.length ∧ (d.getEdge e).face < d.faces.length) ∧
  (∀ f ∈ List.range d.faces.length, ∀ c ∈ (d.getFace f).contours,
    ∀ e ∈ edge_loop_iter d.edges c, e < d.edges.length ∧ (d.getEdge e).face = f)

instance {C K : Type} [Inhabited C] [DecidableEq C] (d : Dcel C K) :
    Decidable (DcelWF d) := by
  unfold DcelWF; infer_instance

/-- The twin involution of claim C1 on the edge array. -/
def twinOK {C K : Type} [Inhabited C] (d : Dcel C K) : Prop :=
  ∀ e ∈ List.range d.edges.length,
    (d.getEdge e).twin < d.edges.length ∧ (d.getEdge (d.getEdge e).twin).twin = e ∧
      (d.getEdge e).twin ≠ e

instance {C K : Type} [Inhabited C] [DecidableEq C] (d : Dcel C K) :
    Decidable (twinOK d) := by
  unfold twinOK; infer_instance

/-- The BFS loop invariant used to prove the amended claim C2: state sizes
match the face count, queued faces are in bounds and flagged assigned, and
every assigned face already carries its potential value `F`. -/
def bfs_inv {C K : Type} [Inhabited C] (d : Dcel C K) (F : Nat → Int)
    (st : Dcel.BfsSt) : Prop :=
  st.fills.length = d.faces.length ∧ st.assigned.length = d.faces.length ∧
  (∀ f ∈ st.queue, f < d.faces.length ∧ st.assigned.getD f false = true) ∧
  (∀ f, f < d.faces.length → st.assigned.getD f false = true →
    st.fills.getD f 0 = F f)

/-!  ### Concrete inputs appearing in the claim theorems  -/

/-- The non-collinear reference vertices for claim C9: the control points and
Loop–Blinn coordinates of the quadratic `((0,0),(1,2),(2,0))`. -/
def cvA : CurveVertex ℚ := ⟨⟨0, 0⟩, ⟨0, 0, 1, 1⟩⟩

/-- Second reference vertex for claim C9. -/
def cvB : CurveVertex ℚ := ⟨⟨1, 2⟩, ⟨0, 1 / 2, 1, 1⟩⟩

/-- Third reference vertex for claim C9. -/
def cvC : CurveVertex ℚ := ⟨⟨2, 0⟩, ⟨1, 1, 1, 1⟩⟩

/-- The failing arc of claim C4: unit circle, `t1 = 0`, sweep `dt = π`
(exactly the canonical form `elliptic_arc_gen::circle` produces, which always
sets `t1 = 0`). -/
noncomputable def arcC4 : EllipticArc := ⟨⟨0, 0⟩, ⟨1, 1⟩, ⟨1, 0⟩, 0, Real.pi⟩

/-- The failing cubic of claim C6: the degree-elevated form of the quadratic
`((0,0),(0,3),(3,0))`, so its cubic term vanishes exactly. -/
noncomputable def cubicC6 : CubicBezier := ⟨⟨0, 0⟩, ⟨0, 2⟩, ⟨1, 2⟩, ⟨3, 0⟩⟩

/-- The quadratic `simplify_cubic_bezier` emits for `cubicC6`: its third point
is `cubicC6.c`, not the cubic's endpoint `cubicC6.d`. -/
noncomputable def quadC6 : QuadraticBezier := ⟨⟨0, 0⟩, ⟨0, 3⟩, ⟨1, 2⟩⟩

/-- First segment of the claim C7 counterexample. -/
noncomputable def lineC7a : Line := ⟨⟨0, 0⟩, ⟨1, 0⟩⟩

/-- Second segment of the claim C7 counterexample: its supporting line crosses
the first segment's supporting line at parameter 2, outside `[0,1]`. -/
noncomputable def lineC7b : Line := ⟨⟨2, 1⟩, ⟨2, -1⟩⟩

/-- Second segment of the claim C7 witness: crosses the first segment at
parameter 1/2. -/
noncomputable def lineC7c : Line := ⟨⟨1 / 2, -1⟩, ⟨1 / 2, 1⟩⟩

/-- A single-segment needle DCEL over unit curves (the combinatorial state of
`needle_dcel`), used to exhibit the `simplify_faces` no-op of claim C5: edge 0
and its twin share face 0, so the claim says the edge must be collapsed. -/
def needleFillDcel : Dcel Unit Unit where
  vertices := []
  edges := [⟨(), 1, 1, 1, 1, 0⟩, ⟨(), 0, 0, 0, 0, 0⟩]
  faces := [⟨[0], 0, true⟩]

/-!  ## Theorems

First the component-level evaluation lemmas (Rat arithmetic does not reduce
in the kernel, so concrete runs are evaluated through `simp`/`norm_num`),
then the claim theorems. -/

section EvalLemmas

variable {α : Type} [LinearOrderedField α]

@[simp] theorem Vec2.add_mk (a b c d : α) :
    (Vec2.mk a b) + (Vec2.mk c d) = Vec2.mk (a + c) (b + d) := rfl

@[simp] theorem Vec2.sub_mk (a b c d : α) :
    (Vec2.mk a b) - (Vec2.mk c d) = Vec2.mk (a - c) (b - d) := rfl

@[simp] theorem Vec2.neg_mk (a b : α) : -(Vec2.mk a b) = Vec2.mk (-a) (-b) := rfl

@[simp] theorem Vec2.smul_mk (k a b : α) :
    k • (Vec2.mk a b) = Vec2.mk (k * a) (k * b) := rfl

@[simp] theorem Vec2.div_mk (a b k : α) :
    (Vec2.mk a b) / k = Vec2.mk (a / k) (b / k) := rfl

@[simp] theorem Vec2.cross_mk (a b c d : α) :
    (Vec2.mk a b).cross (Vec2.mk c d) = a * d - b * c := rfl

@[simp] theorem Vec2.dot_mk (a b c d : α) :
    (Vec2.mk a b).dot (Vec2.mk c d) = a * c + b * d := rfl

@[simp] theorem Vec2.length_sq_mk (a b : α) :
    (Vec2.mk a b).length_sq = a * a + b * b := rfl

@[simp] theorem Vec2.rot_scale_mk (a b c d : α) :
    (Vec2.mk a b).rot_scale (Vec2.mk c d) = Vec2.mk (a * c - b * d) (a * d + b * c) := rfl

@[simp] theorem Vec2.zero_def : (Vec2.zero : Vec2 α) = Vec2.mk 0 0 := rfl

@[simp] theorem Vec4.add_mk4 (a b c d e f g h : α) :
    (Vec4.mk a b c d) + (Vec4.mk e f g h) = Vec4.mk (a + e) (b + f) (c + g) (d + h) := rfl

@[simp] theorem Vec4.sub_mk4 (a b c d e f g h : α) :
    (Vec4.mk a b c d) - (Vec4.mk e f g h) = Vec4.mk (a - e) (b - f) (c - g) (d - h) := rfl

@[simp] theorem Vec4.neg_mk4 (a b c d : α) :
    -(Vec4.mk a b c d) = Vec4.mk (-a) (-b) (-c) (-d) := rfl

@[simp] theorem Vec4.smul_mk4 (k a b c d : α) :
    k • (Vec4.mk a b c d) = Vec4.mk (k * a) (k * b) (k * c) (k * d) := rfl

@[simp] theorem Vec4.div_mk4 (a b c d k : α) :
    (Vec4.mk a b c d) / k = Vec4.mk (a / k) (b / k) (c / k) (d / k) := rfl

theorem EPSILON_eq : (EPSILON : α) = 1 / 32768 := rfl

theorem EPSILON2_eq : (EPSILON2 : α) = 1 / 1073741824 := by
  rw [EPSILON2, EPSILON]; norm_num

@[simp] theorem roughly_zero_eq (x : α) :
    roughly_zero x = decide (-(1 / 32768) < x ∧ x < 1 / 32768) := by
  rw [roughly_zero, ← Bool.and_eq_decide, EPSILON_eq]

@[simp] theorem roughly_zero_squared_eq (x : α) :
    roughly_zero_squared x = decide (-(1 / 1073741824) < x ∧ x < 1 / 1073741824) := by
  rw [roughly_zero_squared, ← Bool.and_eq_decide, EPSILON2_eq]

@[simp] theorem inside01_eq (t : α) : inside01 t = decide (0 ≤ t ∧ t ≤ 1) := by
  rw [inside01, ← Bool.and_eq_decide]

theorem Vec2.cross_antisymm (u v : Vec2 α) : v.cross u = -(u.cross v) := by
  simp [Vec2.cross]; ring

end EvalLemmas

/-- Claim C9 (code_bug): `coord_extrapolator` on the three non-collinear
reference vertices `cvA cvB cvC` takes the widest-baseline linear branch —
because the triple-search loop breaks only when a triple's winding IS roughly
zero, the opposite of its own comment — so the result at the reference vertex
`cvB` is the linear value `(1/2, 1/2, 1, 1)` instead of the barycentric value
`cvB.tex = (0, 1/2, 1, 1)` the claim requires. -/
theorem C9_coord_extrapolator_linear_on_noncollinear :
    coord_extrapolator [cvA, cvB, cvC] ⟨1, 2⟩ = extrapolate_two cvA cvC ⟨1, 2⟩ ∧
    coord_extrapolator [cvA, cvB, cvC] ⟨1, 2⟩ = ⟨1 / 2, 1 / 2, 1, 1⟩ ∧
    coord_extrapolator [cvA, cvB, cvC] ⟨1, 2⟩ ≠ barycentric_at_vertex cvB := by
  refine ⟨?_, ?_, ?_⟩ <;>
    norm_num [coord_extrapolator, extrapolator_triple_index, extrapolate_two,
      barycentric_at_vertex, cvA, cvB, cvC, List.range_succ, Vec2.zero, Vec4.zero]

/-- Claim C10 (confirmed): in `path_to_curves`, a `ClosePath` appends the
closing segment exactly when `prev_vec != first_vec` under exact equality and
emits the subpath with `closed = true` (emitting nothing when the subpath is
empty and already closed); a subpath flushed by a later `MoveTo` or by the end
of the command stream is emitted with `closed = false`. -/
theorem C10_path_to_curves_close_semantics :
    (∀ (first prev : Vec2 ℚ) (acc : List PCurve) (rest : List PathCommand),
      path_to_curves_from first prev acc (.closePath :: rest) =
        if acc ≠ [] ∨ prev ≠ first then
          (⟨acc ++ (if prev ≠ first then [.line prev first] else []), true⟩ : CurveComp) ::
            path_to_curves_from first first [] rest
        else path_to_curves_from first first [] rest) ∧
    (∀ (first prev t : Vec2 ℚ) (acc : List PCurve) (rest : List PathCommand),
      acc ≠ [] →
      path_to_curves_from first prev acc (.moveTo t :: rest) =
        (⟨acc, false⟩ : CurveComp) :: path_to_curves_from t t [] rest) ∧
    (∀ (first prev : Vec2 ℚ) (acc : List PCurve),
      acc ≠ [] → path_to_curves_from first prev acc [] = [⟨acc, false⟩]) := by
  refine ⟨?_, ?_, ?_⟩
  · intro first prev acc rest
    by_cases hpf : prev = first <;> by_cases hacc : acc = [] <;>
      simp [path_to_curves_from, hpf, hacc]
  · intro first prev t acc rest h
    simp [path_to_curves_from, h]
  · intro first prev acc h
    simp [path_to_curves_from, h]

/-- Witness for claim C10 at a concrete path state: closing a unit segment
from `(1,0)` back to the first point `(0,0)` appends the exact closing line. -/
theorem C10_path_to_curves_close_semantics_witness :
    path_to_curves_from (Vec2.mk 0 0) (Vec2.mk 1 0) [.line ⟨0, 0⟩ ⟨1, 0⟩]
      [PathCommand.closePath] =
      [⟨[.line ⟨0, 0⟩ ⟨1, 0⟩, .line ⟨1, 0⟩ ⟨0, 0⟩], true⟩] := by
  have h := C10_path_to_curves_close_semantics.1 (Vec2.mk 0 0) (Vec2.mk 1 0)
    [.line ⟨0, 0⟩ ⟨1, 0⟩] []
  rw [h]
  have h2 := C10_path_to_curves_close_semantics.2.2 (Vec2.mk 0 0) (Vec2.mk 0 0)
  norm_num [path_to_curves_from, Vec2.mk.injEq]

/-!  ### C5: `simplify_faces` never removes an edge  -/

theorem getD_replicate_false (n i : Nat) :
    (List.replicate n false).getD i false = false := by
  rw [List.getD_eq_getElem?_getD, List.getElem?_replicate]
  split <;> rfl

/-- The marking loop of `simplify_faces` writes only `false` into an all-false
vector, so no edge is ever marked for removal. -/
theorem edges_to_remove_all_false {C K : Type} [Inhabited C] (d : Dcel C K)
    (rule : FillRule) :
    Dcel.edges_to_remove d rule = List.replicate d.edges.length false := by
  unfold Dcel.edges_to_remove
  generalize List.range d.edges.length = l
  induction l with
  | nil => rfl
  | cons e l ih =>
    rw [List.foldl_cons]
    have h : (if (List.replicate d.edges.length false).getD (d.getEdge e).twin false then
          List.replicate d.edges.length false
        else if Dcel.face_visible d (d.getEdge e).face rule =
            Dcel.face_visible d (d.getEdge (d.getEdge e).twin).face rule then
          (List.replicate d.edges.length false).set e false
        else List.replicate d.edges.length false) =
        List.replicate d.edges.length false := by
      rw [getD_replicate_false]
      simp [List.set_replicate_self]
    rw [h]
    exact ih

/-- `simplify_faces` is the identity on every DCEL state. -/
theorem simplify_faces_eq_self {C K : Type} [Inhabited C] (d : Dcel C K)
    (rule : FillRule) : Dcel.simplify_faces d rule = d := by
  unfold Dcel.simplify_faces
  rw [edges_to_remove_all_false]
  have h : (List.range d.edges.length).filter
      (fun i => (List.replicate d.edges.length false).getD i false) = [] := by
    rw [List.filter_eq_nil_iff]
    intro a _
    rw [getD_replicate_false]
    simp
  dsimp only
  rw [h]
  rfl

/-- Claim C5 (code_bug): `simplify_faces` collapses nothing — the marking loop
assigns `edges_to_remove[e] = false` (not `true`) into the freshly created
all-false vector, so the whole pass is the identity on every DCEL; in
particular on the needle DCEL, whose edge 0 shares face 0 with its twin
(equal visibility under any rule), both half-edges survive. -/
theorem C5_simplify_faces_is_noop :
    (∀ (d : Dcel Unit Unit) (rule : FillRule), Dcel.simplify_faces d rule = d) ∧
    Dcel.simplify_faces needleFillDcel .evenOdd = needleFillDcel ∧
    (needleFillDcel.getEdge 0).face =
      (needleFillDcel.getEdge (needleFillDcel.getEdge 0).twin).face := by
  exact ⟨fun d rule => simplify_faces_eq_self d rule,
    simplify_faces_eq_self needleFillDcel .evenOdd, rfl⟩

/-!  ### Claim C1: DCEL invariants after public mutations  -/


section TwinHelpers

variable {C K : Type} [Inhabited C]

theorem getD_set_self {β : Type} [Inhabited β] {l : List β} {i : Nat} {x : β}
    (h : i < l.length) : (l.set i x).getD i default = x := by
  rw [List.getD_eq_getElem?_getD, List.getElem?_set]
  simp [h]

theorem getD_set_ne {β : Type} [Inhabited β] {l : List β} {i j : Nat} {x : β}
    (h : i ≠ j) : (l.set i x).getD j default = l.getD j default := by
  rw [List.getD_eq_getElem?_getD, List.getElem?_set, if_neg h, ← List.getD_eq_getElem?_getD]

theorem twinOK_congr {d d' : Dcel C K} (h : d'.edges = d.edges) (hd : twinOK d) :
    twinOK d' := by
  unfold twinOK Dcel.getEdge at *
  rw [h]
  exact hd

theorem twinOK_set_same_twin {d : Dcel C K} {i : Nat} {e' : DEdge C}
    (ht : e'.twin = (d.getEdge i).twin) (hd : twinOK d) :
    twinOK { d with edges := d.edges.set i e' } := by
  have hl : (d.edges.set i e').length = d.edges.length := List.length_set d.edges i e'
  have htw : ∀ j, ((d.edges.set i e').getD j default).twin =
      (d.edges.getD j default).twin := by
    intro j
    by_cases hij : i = j
    · subst hij
      by_cases hlt : i < d.edges.length
      · rw [getD_set_self hlt, ht]; rfl
      · rw [List.set_eq_of_length_le (Nat.le_of_not_lt hlt)]
    · rw [getD_set_ne hij]
  intro j hj
  rw [List.mem_range, hl] at hj
  have h1 := hd j (List.mem_range.mpr hj)
  unfold Dcel.getEdge
  rw [hl, htw j, htw ((d.edges.getD j default).twin)]
  exact h1

theorem twinOK_setEdgeNext {d : Dcel C K} {i n : Nat} (hd : twinOK d) :
    twinOK (d.setEdgeNext i n) := twinOK_set_same_twin rfl hd

theorem twinOK_setEdgePrev {d : Dcel C K} {i p : Nat} (hd : twinOK d) :
    twinOK (d.setEdgePrev i p) := twinOK_set_same_twin rfl hd

theorem twinOK_setEdgeFace {d : Dcel C K} {i f : Nat} (hd : twinOK d) :
    twinOK (d.setEdgeFace i f) := twinOK_set_same_twin rfl hd

theorem twinOK_addEdgeCanon {d : Dcel C K} {i : Nat} {delta : Int} (hd : twinOK d) :
    twinOK (d.addEdgeCanon i delta) := twinOK_set_same_twin rfl hd

theorem twinOK_setFaceContours {d : Dcel C K} {f : Nat} {cs : List Nat} (hd : twinOK d) :
    twinOK (d.setFaceContours f cs) := twinOK_congr rfl hd

theorem twinOK_pushFace {d : Dcel C K} {fc : DFace} (hd : twinOK d) :
    twinOK (d.pushFace fc) := twinOK_congr rfl hd

theorem twinOK_setVertexMap {d : Dcel C K} {v : Nat} {m : List (K × Nat)}
    (hd : twinOK d) : twinOK (d.setVertexMap v m) := twinOK_congr rfl hd

theorem getD_append_left {β : Type} [Inhabited β] {l1 l2 : List β} {i : Nat}
    (h : i < l1.length) : (l1 ++ l2).getD i default = l1.getD i default := by
  rw [List.getD_eq_getElem?_getD, List.getElem?_append, if_pos h,
    ← List.getD_eq_getElem?_getD]

theorem twinOK_pushPair {d : Dcel C K} {c r : C} (hd : twinOK d) :
    twinOK (d.pushPair c r) := by
  unfold twinOK Dcel.getEdge at hd ⊢
  unfold Dcel.pushPair
  dsimp only at hd ⊢
  intro j hj
  rw [List.mem_range, List.length_append] at hj
  have hgl : ∀ i, i < d.edges.length →
      ((d.edges ++ [⟨c, d.edges.length + 1, 0, 0, 0, 0⟩,
        (⟨r, d.edges.length, 0, 0, 0, 0⟩ : DEdge C)]).getD i default) = d.edges.getD i default :=
    fun i hi => getD_append_left hi
  have hgn : (d.edges ++ [⟨c, d.edges.length + 1, 0, 0, 0, 0⟩,
      (⟨r, d.edges.length, 0, 0, 0, 0⟩ : DEdge C)]).getD d.edges.length default =
      ⟨c, d.edges.length + 1, 0, 0, 0, 0⟩ := by
    rw [List.getD_eq_getElem?_getD, List.getElem?_append, if_neg (by omega)]
    simp
  have hgn1 : (d.edges ++ [⟨c, d.edges.length + 1, 0, 0, 0, 0⟩,
      (⟨r, d.edges.length, 0, 0, 0, 0⟩ : DEdge C)]).getD (d.edges.length + 1) default =
      ⟨r, d.edges.length, 0, 0, 0, 0⟩ := by
    rw [List.getD_eq_getElem?_getD, List.getElem?_append, if_neg (by omega)]
    have : d.edges.length + 1 - d.edges.length = 1 := by omega
    rw [this]
    simp
  rw [List.length_append]
  by_cases h1 : j < d.edges.length
  · have := hd j (List.mem_range.mpr h1)
    rw [hgl j h1, hgl _ this.1]
    refine ⟨by omega, this.2.1, this.2.2⟩
  · simp at hj
    by_cases h2 : j = d.edges.length
    · subst h2
      rw [hgn]
      dsimp
      rw [hgn1]
      refine ⟨by simp, rfl, by omega⟩
    · have h3 : j = d.edges.length + 1 := by omega
      subst h3
      rw [hgn1]
      dsimp
      rw [hgn]
      refine ⟨by simp, rfl, by omega⟩

theorem twinOK_foldl {β : Type} {f : Dcel C K → β → Dcel C K}
    (hf : ∀ d x, twinOK d → twinOK (f d x)) (l : List β) (d : Dcel C K)
    (hd : twinOK d) : twinOK (l.foldl f d) := by
  induction l generalizing d with
  | nil => exact hd
  | cons x l ih => exact ih _ (hf d x hd)

theorem twinOK_assign_face {d : Dcel C K} {f e : Nat} (hd : twinOK d) :
    twinOK (Dcel.assign_face d f e) :=
  twinOK_foldl (fun _ _ h => twinOK_setEdgeFace h) _ d hd

end TwinHelpers

theorem twinOK_acc_both_new {α : Type} [LinearOrderedField α] {C K : Type} [Inhabited C]
    (ops : CurveOps α C K) (d : Dcel C K) (v1 v2 : Nat) (curve : C) (delta : Int)
    (ak1 ak2 : K) (h : twinOK d) :
    twinOK (Dcel.acc_both_new ops d v1 v2 curve delta ak1 ak2) := by
  unfold Dcel.acc_both_new
  lift_lets
  intro p0 face e1 e2 dA dB dC dD dE dF dG dH dI dJ dK dL nf dM pr dN dO part dP dQ dR dS dT dU
  have hA : twinOK dA := twinOK_pushPair h
  have hB : twinOK dB := twinOK_addEdgeCanon hA
  have hC : twinOK dC := twinOK_setEdgeNext hB
  have hD : twinOK dD := twinOK_setEdgePrev hC
  have hE : twinOK dE := twinOK_setEdgeNext hD
  have hF : twinOK dF := twinOK_setEdgePrev hE
  have hG : twinOK dG := twinOK_setEdgeFace hF
  have hH : twinOK dH := twinOK_setEdgeFace hG
  have hI : twinOK dI := twinOK_setEdgeNext hB
  have hJ : twinOK dJ := twinOK_setEdgePrev hI
  have hK : twinOK dK := twinOK_setEdgeNext hJ
  have hL : twinOK dL := twinOK_setEdgePrev hK
  have hM : twinOK dM := twinOK_pushFace hL
  have hN : twinOK dN := twinOK_setFaceContours hM
  have hO : twinOK dO := twinOK_setEdgeFace hN
  have hP : twinOK dP := twinOK_setFaceContours hO
  have hQ : twinOK dQ := twinOK_foldl (fun _ _ hx => twinOK_assign_face hx) part.2 dP hP
  have hR : twinOK dR := twinOK_setFaceContours hQ
  have hS : twinOK dS := twinOK_setFaceContours hR
  have hT : twinOK dT := by
    simp only [dT]
    split
    · exact twinOK_setFaceContours hH
    · exact twinOK_setEdgeFace hS
  have hU : twinOK dU := twinOK_setVertexMap hT
  exact twinOK_setVertexMap hU

theorem twinOK_acc_both_found {α : Type} [LinearOrderedField α] {C K : Type} [Inhabited C]
    (ops : CurveOps α C K) (d : Dcel C K) (v1 v2 : Nat) (curve : C) (delta : Int)
    (ak1 ak2 : K) (e1lo e1ro : Nat) (h : twinOK d) :
    twinOK (Dcel.acc_both_found ops d v1 v2 curve delta ak1 ak2 e1lo e1ro) := by
  unfold Dcel.acc_both_found
  lift_lets
  intro e1 e2 d27 d26 so2 e2lo e2ro t1ro t2ro diff pr1 d25 d24 d23 d22 d21 d20 d19 d18 d17 d16 d15 d14 d13 d12 d11 face d10 d9 eds1 d8 nf d7 oldf eds0 d6 wsum pr0 d5 d4 part d3 d2 d1 d0
  have h27 : twinOK d27 := twinOK_pushPair h
  have h26 : twinOK d26 := twinOK_addEdgeCanon h27
  have h25 : twinOK d25 := twinOK_setEdgeNext h26
  have h24 : twinOK d24 := twinOK_setEdgePrev h25
  have h23 : twinOK d23 := twinOK_setEdgeNext h24
  have h22 : twinOK d22 := twinOK_setEdgePrev h23
  have h21 : twinOK d21 := twinOK_setEdgeNext h22
  have h20 : twinOK d20 := twinOK_setEdgeNext h26
  have h19 : twinOK d19 := twinOK_setEdgePrev h20
  have h18 : twinOK d18 := twinOK_setEdgeNext h19
  have h17 : twinOK d17 := twinOK_setEdgePrev h18
  have h16 : twinOK d16 := twinOK_setEdgeNext h17
  have h15 : twinOK d15 := twinOK_setEdgePrev h16
  have h14 : twinOK d14 := twinOK_setEdgeNext h15
  have h13 : twinOK d13 := by
    simp only [d13]
    split
    · exact twinOK_setEdgePrev h21
    · exact twinOK_setEdgePrev h14
  have h12 : twinOK d12 := twinOK_setVertexMap h13
  have h11 : twinOK d11 := twinOK_setVertexMap h12
  have h10 : twinOK d10 := twinOK_setEdgeFace h11
  have h9 : twinOK d9 := twinOK_setEdgeFace h10
  have h8 : twinOK d8 := twinOK_setFaceContours h9
  have h7 : twinOK d7 := twinOK_pushFace h11
  have h6 : twinOK d6 := twinOK_setFaceContours h7
  have h5 : twinOK d5 := twinOK_assign_face h6
  have h4 : twinOK d4 := twinOK_setFaceContours h5
  have h3 : twinOK d3 := twinOK_setFaceContours h4
  have h2 : twinOK d2 := twinOK_foldl (fun _ _ hx => twinOK_assign_face hx) part.2 d3 h3
  have h1 : twinOK d1 := twinOK_setFaceContours h2
  have h0 : twinOK d0 := twinOK_assign_face h1
  split
  · exact twinOK_setFaceContours h8
  · exact twinOK_setFaceContours h0

theorem twinOK_acc_one_found {α : Type} [LinearOrderedField α] {C K : Type} [Inhabited C]
    (ops : CurveOps α C K) (d : Dcel C K) (v1 v2 : Nat) (curve : C) (delta : Int)
    (ak1 ak2 : K) (found1 : Bool) (h : twinOK d) :
    twinOK (Dcel.acc_one_found ops d v1 v2 curve delta ak1 ak2 found1) := by
  unfold Dcel.acc_one_found
  lift_lets
  intro e1 e2 dA dB e1s e2s v1s v2s ak1s ak2s so e1lo e1ro t1ro dC dD dE dF dG dH fc dI dJ dK
  have hA : twinOK dA := twinOK_pushPair h
  have hB : twinOK dB := twinOK_addEdgeCanon hA
  have hC : twinOK dC := twinOK_setEdgePrev hB
  have hD : twinOK dD := twinOK_setEdgeNext hC
  have hE : twinOK dE := twinOK_setEdgePrev hD
  have hF : twinOK dF := twinOK_setEdgeNext hE
  have hG : twinOK dG := twinOK_setEdgeNext hF
  have hH : twinOK dH := twinOK_setEdgePrev hG
  have hI : twinOK dI := twinOK_setEdgeFace hH
  have hJ : twinOK dJ := twinOK_setEdgeFace hI
  have hK : twinOK dK := twinOK_setVertexMap hJ
  exact twinOK_setVertexMap hK

theorem twinOK_add_curve_canonicity {α : Type} [LinearOrderedField α] {C K : Type}
    [Inhabited C] (ops : CurveOps α C K) (d : Dcel C K) (v1 v2 : Nat) (curve : C)
    (delta : Int) (h : twinOK d) :
    twinOK (Dcel.add_curve_canonicity ops d v1 v2 curve delta) := by
  unfold Dcel.add_curve_canonicity
  lift_lets
  intros
  split
  · exact twinOK_acc_both_new ops d v1 v2 curve delta _ _ h
  · split
    · split
      · exact twinOK_acc_both_found ops d v1 v2 curve delta _ _ _ _ h
      · exact twinOK_addEdgeCanon h
    · exact twinOK_acc_one_found ops d v1 v2 curve delta _ _ _ h

theorem twinOK_add_curve {α : Type} [LinearOrderedField α] {C K : Type}
    [Inhabited C] (ops : CurveOps α C K) (d : Dcel C K) (v1 v2 : Nat) (curve : C)
    (h : twinOK d) : twinOK (Dcel.add_curve ops d v1 v2 curve) :=
  twinOK_add_curve_canonicity ops d v1 v2 curve 1 h

section TwinHelpers2

variable {C K : Type} [Inhabited C]

theorem twinOK_rw_while {j i : Nat} :
    ∀ (fuel : Nat) (set0 : List Bool) (e : Nat) (inds : List Nat) (d : Dcel C K),
      twinOK d → twinOK (Dcel.rw_while d j i fuel set0 e inds).1
  | 0, _, _, _, _, hd => hd
  | fuel + 1, set0, e, inds, d, hd => by
    unfold Dcel.rw_while
    split
    · exact hd
    · split
      · split
        · exact hd
        · lift_lets
          intros
          exact twinOK_rw_while fuel _ _ _ _
            (twinOK_setFaceContours (twinOK_setEdgePrev (twinOK_setEdgeNext hd)))
      · exact twinOK_rw_while fuel _ _ _ _ hd

theorem twinOK_foldl_fst {β γ : Type} {f : Dcel C K × γ → β → Dcel C K × γ}
    (hf : ∀ st x, twinOK st.1 → twinOK (f st x).1) (l : List β) (st : Dcel C K × γ)
    (hst : twinOK st.1) : twinOK (l.foldl f st).1 := by
  induction l generalizing st with
  | nil => exact hst
  | cons x xs ih => exact ih (f st x) (hf st x hst)

theorem twinOK_rw_face {d : Dcel C K} {j : Nat} (hd : twinOK d) :
    twinOK (Dcel.rw_face d j) := by
  unfold Dcel.rw_face
  lift_lets
  intro n res
  apply twinOK_setFaceContours
  apply twinOK_foldl_fst (fun st i hst => ?_) (List.range n) (d, [], false) hd
  dsimp only
  split
  · exact hst
  · exact twinOK_rw_while _ _ _ _ _ hst

theorem twinOK_remove_wedges {d : Dcel C K} (hd : twinOK d) :
    twinOK (Dcel.remove_wedges d) :=
  twinOK_foldl (fun _ _ hx => twinOK_rw_face hx) _ d hd

theorem twinOK_assign_face_fill_numbers {d : Dcel C K} (hd : twinOK d) :
    twinOK (Dcel.assign_face_fill_numbers d) :=
  twinOK_congr rfl hd

end TwinHelpers2

section BfsHelpers

variable {C K : Type} [Inhabited C]

theorem getD_set_self2 {β : Type} {l : List β} {i : Nat} {x dflt : β}
    (h : i < l.length) : (l.set i x).getD i dflt = x := by
  rw [List.getD_eq_getElem?_getD, List.getElem?_set]
  simp [h]

theorem getD_set_ne2 {β : Type} {l : List β} {i j : Nat} {x dflt : β}
    (h : i ≠ j) : (l.set i x).getD j dflt = l.getD j dflt := by
  rw [List.getD_eq_getElem?_getD, List.getElem?_set, if_neg h,
    ← List.getD_eq_getElem?_getD]

theorem foldl_pres {σ β : Type} (P : σ → Prop) {f : σ → β → σ} :
    ∀ {l : List β}, (∀ st x, x ∈ l → P st → P (f st x)) → ∀ {st : σ}, P st →
      P (l.foldl f st)
  | [], _, _, hst => hst
  | x :: xs, hf, st, hst =>
    foldl_pres P (fun st y hy => hf st y (List.mem_cons_of_mem x hy))
      (hf st x (List.mem_cons_self x xs) hst)

theorem bfs_inv_process_edge {d : Dcel C K} {F : Nat → Int} {st : Dcel.BfsSt}
    {face e : Nat}
    (hWF : DcelWF d)
    (hFpot : ∀ e ∈ List.range d.edges.length,
      F ((d.getEdge (d.getEdge e).twin).face) - F ((d.getEdge e).face) =
        (d.getEdge (d.getEdge e).twin).canonicity - (d.getEdge e).canonicity)
    (hinv : bfs_inv d F st) (hfl : face < d.faces.length)
    (hfa : st.assigned.getD face false = true)
    (he : e < d.edges.length) (hface : (d.getEdge e).face = face) :
    bfs_inv d F (Dcel.bfs_process_edge d face st e) ∧
      (Dcel.bfs_process_edge d face st e).assigned.getD face false = true := by
  obtain ⟨hlen1, hlen2, hq, hfills⟩ := hinv
  have htw := hWF.2.1 e (List.mem_range.mpr he)
  have htf := (hWF.2.1 _ (List.mem_range.mpr htw.1)).2
  unfold Dcel.bfs_process_edge
  lift_lets
  intro t tf fill
  by_cases hat : st.assigned.getD tf false = true
  · rw [if_pos hat]
    exact ⟨⟨hlen1, hlen2, hq, hfills⟩, hfa⟩
  · rw [if_neg (by simpa using hat)]
    have htfl : tf < d.faces.length := htf
    have hfill : fill = F tf := by
      have h1 : st.fills.getD face 0 = F face := hfills face hfl hfa
      have h2 := hFpot e (List.mem_range.mpr he)
      rw [hface] at h2
      simp only [fill, t, tf] at *
      omega
    refine ⟨⟨?_, ?_, ?_, ?_⟩, ?_⟩
    · simpa using hlen1
    · simpa using hlen2
    · intro f hf
      rcases List.mem_append.mp hf with hf | hf
      · refine ⟨(hq f hf).1, ?_⟩
        by_cases hftf : tf = f
        · subst hftf
          exact getD_set_self2 (hlen2 ▸ htfl)
        · rw [getD_set_ne2 hftf]
          exact (hq f hf).2
      · rw [List.mem_singleton.mp hf]
        exact ⟨htfl, getD_set_self2 (hlen2 ▸ htfl)⟩
    · intro f hflt hfass
      by_cases hftf : tf = f
      · subst hftf
        rw [getD_set_self2 (hlen1 ▸ htfl)]
        exact hfill
      · rw [getD_set_ne2 hftf] at hfass ⊢
        exact hfills f hflt hfass
    · by_cases hftf : tf = face
      · subst hftf
        exact getD_set_self2 (hlen2 ▸ htfl)
      · rw [getD_set_ne2 hftf]
        exact hfa

theorem bfs_inv_process_face {d : Dcel C K} {F : Nat → Int} {st : Dcel.BfsSt}
    {face : Nat}
    (hWF : DcelWF d)
    (hFpot : ∀ e ∈ List.range d.edges.length,
      F ((d.getEdge (d.getEdge e).twin).face) - F ((d.getEdge e).face) =
        (d.getEdge (d.getEdge e).twin).canonicity - (d.getEdge e).canonicity)
    (hinv : bfs_inv d F st) (hfl : face < d.faces.length)
    (hfa : st.assigned.getD face false = true) :
    bfs_inv d F (Dcel.bfs_process_face d face st) := by
  unfold Dcel.bfs_process_face
  have key : ∀ st : Dcel.BfsSt,
      (bfs_inv d F st ∧ st.assigned.getD face false = true) →
      bfs_inv d F ((d.getFace face).contours.foldl
        (fun st c => (edge_loop_iter d.edges c).foldl (Dcel.bfs_process_edge d face) st) st) ∧
      (((d.getFace face).contours.foldl
        (fun st c => (edge_loop_iter d.edges c).foldl (Dcel.bfs_process_edge d face) st) st)).assigned.getD face false = true := by
    intro st0 hst0
    refine foldl_pres
      (fun st => bfs_inv d F st ∧ st.assigned.getD face false = true)
      (fun st c hc hst => ?_) hst0
    refine foldl_pres
      (fun st => bfs_inv d F st ∧ st.assigned.getD face false = true)
      (fun st e heli hst => ?_) hst
    have hed := hWF.2.2 face (List.mem_range.mpr hfl) c hc e heli
    exact bfs_inv_process_edge hWF hFpot hst.1 hfl hst.2 hed.1 hed.2
  exact (key st ⟨hinv, hfa⟩).1

theorem bfs_inv_loop {d : Dcel C K} {F : Nat → Int}
    (hWF : DcelWF d)
    (hFpot : ∀ e ∈ List.range d.edges.length,
      F ((d.getEdge (d.getEdge e).twin).face) - F ((d.getEdge e).face) =
        (d.getEdge (d.getEdge e).twin).canonicity - (d.getEdge e).canonicity) :
    ∀ (fuel : Nat) (st : Dcel.BfsSt), bfs_inv d F st →
      bfs_inv d F (Dcel.bfs_loop d fuel st)
  | 0, _, h => h
  | fuel + 1, st, h => by
    unfold Dcel.bfs_loop
    obtain ⟨fills, assigned, queue⟩ := st
    match queue with
    | [] => exact h
    | f :: rest =>
      have hf := h.2.2.1 f (List.mem_cons_self f rest)
      have hrest : bfs_inv d F ⟨fills, assigned, rest⟩ :=
        ⟨h.1, h.2.1, fun g hg => h.2.2.1 g (List.mem_cons_of_mem f hg), h.2.2.2⟩
      exact bfs_inv_loop hWF hFpot fuel _
        (bfs_inv_process_face hWF hFpot hrest hf.1 hf.2)

theorem bfs_inv_assign_fills {d : Dcel C K} {F : Nat → Int}
    (hWF : DcelWF d)
    (hF0 : F 0 = (d.getFace 0).fill_number)
    (hFpot : ∀ e ∈ List.range d.edges.length,
      F ((d.getEdge (d.getEdge e).twin).face) - F ((d.getEdge e).face) =
        (d.getEdge (d.getEdge e).twin).canonicity - (d.getEdge e).canonicity) :
    bfs_inv d F (Dcel.assign_fills_state d) := by
  unfold Dcel.assign_fills_state
  apply bfs_inv_loop hWF hFpot
  have hn : 0 < d.faces.length := hWF.1
  have hrl : ((List.replicate d.faces.length false).set 0 true).length =
      d.faces.length := by simp
  refine ⟨by simp, hrl, ?_, ?_⟩
  · intro f hf
    rw [List.mem_singleton.mp hf]
    exact ⟨hn, getD_set_self2 (by simpa using hn)⟩
  · intro f hflt hfass
    by_cases hf0 : f = 0
    · subst hf0
      rw [List.getD_eq_getElem?_getD, List.getElem?_map,
        List.getElem?_eq_getElem (by simpa using hn)]
      simp only [Option.map_some', Option.getD_some]
      rw [hF0]
      unfold Dcel.getFace
      rw [List.getD_eq_getElem?_getD, List.getElem?_eq_getElem hn]
      rfl
    · exfalso
      rw [getD_set_ne2 (fun hh => hf0 hh.symm), getD_replicate_false] at hfass
      exact Bool.false_ne_true hfass

theorem assign_fill_getFace {d : Dcel C K} {f : Nat} (hf : f < d.faces.length) :
    Dcel.getFace (Dcel.assign_face_fill_numbers d) f =
      { d.getFace f with fill_number := (Dcel.assign_fills_state d).fills.getD f 0 } := by
  unfold Dcel.assign_face_fill_numbers Dcel.getFace
  dsimp only
  rw [List.getD_eq_getElem?_getD, List.getElem?_map,
    List.getElem?_range (by simpa using hf)]
  rfl

end BfsHelpers

/-- **C2** (amended): if the DCEL is structurally well formed, all faces are
reached by the BFS, and the edge canonicities admit a potential `F` on faces
(with `F` matching the outer face's initial fill number), then after
`assign_face_fill_numbers` every half-edge `e` satisfies
`fill(face(twin(e))) − fill(face(e)) = canonicity(twin(e)) − canonicity(e)`.
(The unamended claim fails: canonicities produced by inconsistent
`add_curve_canonicity` deltas admit no potential, see the counterexample.) -/
theorem C2_fill_numbers {C K : Type} [Inhabited C] (d : Dcel C K) (F : Nat → Int)
    (hWF : DcelWF d)
    (hF0 : F 0 = (d.getFace 0).fill_number)
    (hFpot : ∀ e ∈ List.range d.edges.length,
      F ((d.getEdge (d.getEdge e).twin).face) - F ((d.getEdge e).face) =
        (d.getEdge (d.getEdge e).twin).canonicity - (d.getEdge e).canonicity)
    (hall : ∀ f ∈ List.range d.faces.length,
      (Dcel.assign_fills_state d).assigned.getD f false = true) :
    ∀ e ∈ List.range d.edges.length,
      fill_invariant_at (Dcel.assign_face_fill_numbers d) e := by
  have hinv := bfs_inv_assign_fills hWF hF0 hFpot
  intro e he
  have h1 := hWF.2.1 e he
  have h2 := (hWF.2.1 _ (List.mem_range.mpr h1.1)).2
  have hedges : ∀ i, Dcel.getEdge (Dcel.assign_face_fill_numbers d) i = d.getEdge i :=
    fun _ => rfl
  unfold fill_invariant_at
  simp only [hedges]
  rw [assign_fill_getFace h2, assign_fill_getFace h1.2]
  dsimp only
  rw [hinv.2.2.2 _ h2 (hall _ (List.mem_range.mpr h2)),
    hinv.2.2.2 _ h1.2 (hall _ (List.mem_range.mpr h1.2))]
  exact hFpot e he

/-- Witness for C2: the consistent triangle DCEL with the potential that is
`0` on the outer face and `1` on the inner face. -/
theorem C2_fill_numbers_witness :
    (DcelWF goodFillDcel ∧
      (fun f : Nat => if f = 0 then 0 else 1) 0 =
        (Dcel.getFace goodFillDcel 0).fill_number) ∧
    ∀ e ∈ List.range goodFillDcel.edges.length,
      fill_invariant_at (Dcel.assign_face_fill_numbers goodFillDcel) e :=
  ⟨⟨by decide, by decide⟩,
    C2_fill_numbers goodFillDcel (fun f => if f = 0 then 0 else 1)
      (by decide) (by decide) (by decide) (by decide)⟩

/-- **C2** counterexample: on the triangle DCEL whose canonicities came from
`add_curve_canonicity` calls with inconsistent deltas, the claimed relation
fails after `assign_face_fill_numbers` (at half-edge 3 the two sides differ). -/
theorem C2_counterexample :
    ¬ ∀ e ∈ List.range badFillDcel.edges.length,
        fill_invariant_at (Dcel.assign_face_fill_numbers badFillDcel) e := by
  decide


/-!  ### Claim C4: elliptic-arc subcurve round trip  -/


/-- **C4** (code bug): for the unit half-circle arc `arcC4` (`t1 = 0`,
`dt = π`), `subcurve(1/2, 1).at(0)` evaluates to `(0, 1)` while `at(1/2)`
evaluates to `(−1, 0)`, refuting the claimed identity
`c.subcurve(l, r).at(0) = c.at(l)`: `EllipticArc::delta_at` computes the
angle as `t1 * t + dt` instead of `t1 + t * dt`. -/
theorem C4_subcurve_at_mismatch :
    (arcC4.subcurve (1 / 2) 1).pointAt 0 = ⟨0, 1⟩ ∧
    arcC4.pointAt (1 / 2) = ⟨-1, 0⟩ ∧
    (arcC4.subcurve (1 / 2) 1).pointAt 0 ≠ arcC4.pointAt (1 / 2) := by
  have h1 : (arcC4.subcurve (1 / 2) 1).pointAt 0 = ⟨0, 1⟩ := by
    unfold arcC4 EllipticArc.subcurve EllipticArc.pointAt EllipticArc.delta_at
      EllipticArc.local_to_global
    dsimp only
    rw [show ((0:ℝ) + 1 / 2 * Real.pi) * 0 + (1 - 1 / 2) * Real.pi = Real.pi / 2 from by
        ring,
      Real.cos_pi_div_two, Real.sin_pi_div_two]
    simp only [Vec2.rot_scale_mk, Vec2.add_mk]
    norm_num
  have h2 : arcC4.pointAt (1 / 2) = ⟨-1, 0⟩ := by
    unfold arcC4 EllipticArc.pointAt EllipticArc.delta_at EllipticArc.local_to_global
    dsimp only
    rw [show (0:ℝ) * (1 / 2) + Real.pi = Real.pi from by ring, Real.cos_pi, Real.sin_pi]
    simp only [Vec2.rot_scale_mk, Vec2.add_mk]
    norm_num
  refine ⟨h1, h2, ?_⟩
  rw [h1, h2]
  intro hcon
  rw [Vec2.mk.injEq] at hcon
  exact absurd hcon.1 (by norm_num)

/-!  ### Claim C6: cubic-to-quadratic reduction  -/


theorem normalized_zero_two : (Vec2.mk (0:ℝ) 2).normalized = ⟨0, 1⟩ := by
  unfold Vec2.normalized Vec2.length
  rw [Vec2.length_sq_mk, show (0:ℝ) * 0 + 2 * 2 = 2 ^ 2 from by norm_num,
    Real.sqrt_sq (by norm_num : (0:ℝ) ≤ 2), Vec2.div_mk]
  norm_num

theorem normalized_one_zero : (Vec2.mk (1:ℝ) 0).normalized = ⟨1, 0⟩ := by
  unfold Vec2.normalized Vec2.length
  rw [Vec2.length_sq_mk, show (1:ℝ) * 1 + 0 * 0 = 1 from by norm_num,
    Real.sqrt_one, Vec2.div_mk]
  norm_num

/-- **C6** (code bug): the cubic `((0,0),(0,2),(1,2),(3,0))` has a vanishing
cubic term (`a − 3b + 3c − d = 0`) and falls into no earlier branch, and
`simplify_cubic_bezier` emits exactly one quadratic — but that quadratic is
`(a, (b1+b2)/4, c.c)`, ending at the third cubic control point `(1,2)` rather
than at the cubic's end point `d = (3,0)`, so the emitted curve does not
coincide pointwise with the cubic (the standard elevation inverse would end
at `d`). -/
theorem C6_cubic_to_quadratic_wrong_endpoint :
    simplify_cubic_bezier cubicC6 = [.quadraticBezier quadC6] ∧
    quadC6.pointAt 1 = ⟨1, 2⟩ ∧
    cubicC6.pointAt 1 = ⟨3, 0⟩ ∧
    quadC6.pointAt 1 ≠ cubicC6.pointAt 1 := by
  have hq : quadC6.pointAt 1 = ⟨1, 2⟩ := by
    unfold quadC6 QuadraticBezier.pointAt
    dsimp only
    simp only [Vec2.smul_mk, Vec2.add_mk]
    norm_num
  have hc : cubicC6.pointAt 1 = ⟨3, 0⟩ := by
    unfold cubicC6 CubicBezier.pointAt
    dsimp only
    simp only [Vec2.smul_mk, Vec2.add_mk]
    norm_num
  refine ⟨?_, hq, hc, ?_⟩
  · unfold simplify_cubic_bezier cubicC6 quadC6
    norm_num [Vec2.roughly_equals, Vec2.roughly_zero, Vec2.sub_mk, Vec2.add_mk,
      Vec2.smul_mk, Vec2.div_mk, Vec2.length_sq_mk, roughly_zero_squared_eq,
      roughly_zero_eq, normalized_zero_two, normalized_one_zero, Vec2.cross_mk, Vec2.mk.injEq]
  · rw [hq, hc]
    intro hcon
    rw [Vec2.mk.injEq] at hcon
    exact absurd hcon.1 (by norm_num)


/-!  ### Claim C7: intersection parameters  -/


theorem normalized_zero_negtwo : (Vec2.mk (0:ℝ) (-2)).normalized = ⟨0, -1⟩ := by
  unfold Vec2.normalized Vec2.length
  rw [Vec2.length_sq_mk, show (0:ℝ) * 0 + -2 * -2 = 2 ^ 2 from by norm_num,
    Real.sqrt_sq (by norm_num : (0:ℝ) ≤ 2), Vec2.div_mk]
  norm_num

theorem C7_eval_b :
    intersection_pairs 0 (.line lineC7a) (.line lineC7b) [] [] = [⟨2, 1 / 2⟩] := by
  show intersection_line_line lineC7a lineC7b = _
  unfold intersection_line_line lineC7a lineC7b
  norm_num [Vec2.sub_mk, Vec2.add_mk, Vec2.cross_mk, Vec2.dot_mk, Vec2.length_sq_mk,
    roughly_zero_squared_eq, normalized_one_zero, normalized_zero_negtwo,
    IntersectionPair.mk.injEq]

theorem C7_eval_c :
    retained_intersections 0 (.line lineC7a) (.line lineC7c) [] [] = [⟨1 / 2, 1 / 2⟩] := by
  have h : intersection_pairs 0 (.line lineC7a) (.line lineC7c) [] [] = [⟨1 / 2, 1 / 2⟩] := by
    show intersection_line_line lineC7a lineC7c = _
    unfold intersection_line_line lineC7a lineC7c
    norm_num [Vec2.sub_mk, Vec2.add_mk, Vec2.cross_mk, Vec2.dot_mk, Vec2.length_sq_mk,
      roughly_zero_squared_eq, normalized_one_zero, normalized_zero_two,
      IntersectionPair.mk.injEq]
  unfold retained_intersections
  rw [h]
  norm_num [List.filter]

/-- **C7** (amended): every intersection pair the pipeline actually *uses* —
the pairs `split_comps` retains after its `inside01` filter — has both
parameters in `[0, 1]`.  (The raw `intersection` routine itself can emit
out-of-range parameters, see the counterexample.) -/
theorem C7_retained_pairs_in_unit_interval (fuel : Nat) (c1 c2 : Curve)
    (cp1 cp2 : List ℝ) (p : IntersectionPair)
    (hp : p ∈ retained_intersections fuel c1 c2 cp1 cp2) :
    0 ≤ p.t1 ∧ p.t1 ≤ 1 ∧ 0 ≤ p.t2 ∧ p.t2 ≤ 1 := by
  unfold retained_intersections at hp
  rw [List.mem_filter, Bool.and_eq_true, inside01_eq, inside01_eq,
    decide_eq_true_iff, decide_eq_true_iff] at hp
  exact ⟨hp.2.1.1, hp.2.1.2, hp.2.2.1, hp.2.2.2⟩

/-- Witness for C7: the pair retained from the crossing segments
`((0,0),(1,0))` and `((1/2,−1),(1/2,1))`. -/
theorem C7_retained_pairs_witness :
    (⟨1 / 2, 1 / 2⟩ : IntersectionPair) ∈
      retained_intersections 0 (.line lineC7a) (.line lineC7c) [] [] ∧
    (0 ≤ (1 / 2 : ℝ) ∧ (1 / 2 : ℝ) ≤ 1 ∧ 0 ≤ (1 / 2 : ℝ) ∧ (1 / 2 : ℝ) ≤ 1) :=
  have hmem : (⟨1 / 2, 1 / 2⟩ : IntersectionPair) ∈
      retained_intersections 0 (.line lineC7a) (.line lineC7c) [] [] := by
    rw [C7_eval_c]; exact List.mem_singleton.mpr rfl
  ⟨hmem, C7_retained_pairs_in_unit_interval 0 (.line lineC7a) (.line lineC7c) [] [] _ hmem⟩

/-- **C7** counterexample: on the segments `((0,0),(1,0))` and
`((2,1),(2,−1))` — whose supporting lines cross at `(2,0)`, beyond the first
segment — the `intersection` routine emits the single unclamped pair
`(2, 1/2)` with `t1 = 2 ∉ [0,1]`, refuting the claim for the raw routine. -/
theorem C7_counterexample :
    intersection_pairs 0 (.line lineC7a) (.line lineC7b) [] [] = [⟨2, 1 / 2⟩] ∧
    ¬ ∀ p ∈ intersection_pairs 0 (.line lineC7a) (.line lineC7b) [] [],
        0 ≤ p.t1 ∧ p.t1 ≤ 1 ∧ 0 ≤ p.t2 ∧ p.t2 ≤ 1 := by
  refine ⟨C7_eval_b, fun h => ?_⟩
  have := h ⟨2, 1 / 2⟩ (by rw [C7_eval_b]; exact List.mem_singleton.mpr rfl)
  exact absurd this.2.1 (by norm_num)


/-!  ### Claim C8: triangle orientation  -/


section TriHelpers

variable {α : Type} [LinearOrderedField α]

theorem triangle_new_cross_nonneg (a b c : Vec2 α) :
    0 ≤ ((Triangle.new a b c).b - (Triangle.new a b c).a).cross
      ((Triangle.new a b c).c - (Triangle.new a b c).a) := by
  unfold Triangle.new
  split
  · dsimp only
    rw [Vec2.cross_antisymm]
    linarith
  · dsimp only
    linarith [not_lt.mp (by assumption)]

theorem curve_triangle_new_cross_nonneg (a b c : CurveVertex α) :
    0 ≤ ((CurveTriangle.new a b c).b.pos - (CurveTriangle.new a b c).a.pos).cross
      ((CurveTriangle.new a b c).c.pos - (CurveTriangle.new a b c).a.pos) := by
  unfold CurveTriangle.new
  split
  · dsimp only
    rw [Vec2.cross_antisymm]
    linarith
  · dsimp only
    linarith [not_lt.mp (by assumption)]

theorem double_triangle_new_cross_nonneg (a b c : DoubleCurveVertex α) :
    0 ≤ ((DoubleCurveTriangle.new a b c).b.pos - (DoubleCurveTriangle.new a b c).a.pos).cross
      ((DoubleCurveTriangle.new a b c).c.pos - (DoubleCurveTriangle.new a b c).a.pos) := by
  unfold DoubleCurveTriangle.new
  split
  · dsimp only
    rw [Vec2.cross_antisymm]
    linarith
  · dsimp only
    linarith [not_lt.mp (by assumption)]

theorem fan_off_stack_mem :
    ∀ (l : List (ChainVertex α)) (p v : Vec2 α) (acc : List (Triangle α)) (t : Triangle α),
      t ∈ fan_off_stack p v l acc → t ∈ acc ∨ ∃ a b c, t = Triangle.new a b c
  | [], _, _, _, _, ht => .inl ht
  | o :: rest, p, v, acc, t, ht => by
    rcases fan_off_stack_mem rest p o.pos _ t ht with h | h
    · rcases List.mem_append.mp h with h | h
      · exact .inl h
      · exact .inr ⟨p, v, o.pos, List.mem_singleton.mp h⟩
    · exact .inr h

theorem diag_loop_mem (pv : ChainVertex α) :
    ∀ (l : List (ChainVertex α)) (v : ChainVertex α) (acc : List (Triangle α))
      (t : Triangle α),
      t ∈ (diag_loop pv v l acc).2.2 → t ∈ acc ∨ ∃ a b c, t = Triangle.new a b c
  | [], _, _, _, ht => .inl ht
  | o :: rest, v, acc, t, ht => by
    unfold diag_loop at ht
    split at ht
    · rcases diag_loop_mem pv rest o _ t ht with h | h
      · rcases List.mem_append.mp h with h | h
        · exact .inl h
        · exact .inr ⟨pv.pos, v.pos, o.pos, List.mem_singleton.mp h⟩
      · exact .inr h
    · exact .inl ht

theorem monotone_step_mem (vertices : List (ChainVertex α))
    (st : List (ChainVertex α) × List (Triangle α)) (j : Nat) (t : Triangle α)
    (ht : t ∈ (monotone_step vertices st j).2) :
    t ∈ st.2 ∨ ∃ a b c, t = Triangle.new a b c := by
  unfold monotone_step at ht
  split at ht
  · exact .inl ht
  · dsimp only at ht
    split at ht
    · exact fan_off_stack_mem _ _ _ _ _ ht
    · exact diag_loop_mem _ _ _ _ _ ht

theorem monotone_fold_mem (vertices : List (ChainVertex α)) :
    ∀ (js : List Nat) (st : List (ChainVertex α) × List (Triangle α)) (t : Triangle α),
      t ∈ (js.foldl (monotone_step vertices) st).2 →
        t ∈ st.2 ∨ ∃ a b c, t = Triangle.new a b c
  | [], _, _, ht => .inl ht
  | j :: js, st, t, ht => by
    rcases monotone_fold_mem vertices js _ t ht with h | h
    · exact monotone_step_mem vertices st j t h
    · exact .inr h

theorem triangulate_monotone_mem (acc : List (Triangle α)) (polygon : List (Vec2 α))
    (t : Triangle α) (ht : t ∈ triangulate_monotone acc polygon) :
    t ∈ acc ∨ ∃ a b c, t = Triangle.new a b c := by
  unfold triangulate_monotone at ht
  dsimp only at ht
  split at ht
  · exact .inl ht
  · split at ht
    · rcases List.mem_append.mp ht with h | h
      · exact .inl h
      · exact .inr ⟨_, _, _, List.mem_singleton.mp h⟩
    · split at ht
      · exact monotone_fold_mem _ _ _ _ ht
      · rcases fan_off_stack_mem _ _ _ _ _ ht with h | h
        · exact monotone_fold_mem _ _ _ _ h
        · exact .inr h

theorem triangulate_fold_mem :
    ∀ (pieces : List (List (Vec2 α))) (acc : List (Triangle α)) (t : Triangle α),
      t ∈ pieces.foldl triangulate_monotone acc →
        t ∈ acc ∨ ∃ a b c, t = Triangle.new a b c
  | [], _, _, ht => .inl ht
  | p :: ps, acc, t, ht => by
    rcases triangulate_fold_mem ps _ t ht with h | h
    · exact triangulate_monotone_mem acc p t h
    · exact .inr h

theorem make_triangle_fan_mem (vs : List (CurveVertex α)) (ct : CurveTriangle α)
    (h : ct ∈ make_triangle_fan vs) : ∃ a b c, ct = CurveTriangle.new a b c := by
  unfold make_triangle_fan at h
  rw [List.mem_filterMap] at h
  obtain ⟨i, _, hi⟩ := h
  by_cases h2 : 2 ≤ i
  · rw [if_pos h2] at hi
    exact ⟨_, _, _, (Option.some_inj.mp hi).symm⟩
  · rw [if_neg h2] at hi
    cases hi

theorem make_double_triangle_fan_mem (vs : List (DoubleCurveVertex α))
    (dt : DoubleCurveTriangle α) (h : dt ∈ make_double_triangle_fan vs) :
    ∃ a b c, dt = DoubleCurveTriangle.new a b c := by
  unfold make_double_triangle_fan at h
  rw [List.mem_filterMap] at h
  obtain ⟨i, _, hi⟩ := h
  by_cases h2 : 2 ≤ i
  · rw [if_pos h2] at hi
    exact ⟨_, _, _, (Option.some_inj.mp hi).symm⟩
  · rw [if_neg h2] at hi
    cases hi

end TriHelpers

/-- **C8**: every plain `Triangle` the triangulation emits is counter-clockwise
(`(b−a) × (c−a) ≥ 0`) and non-degenerate (its `is_degenerate` test, the
`EPSILON` check `triangulate` retains by, is false), and every `CurveTriangle`
and `DoubleCurveTriangle` produced by the triangle fans is counter-clockwise:
all three constructors swap `b` and `c` whenever the cross product is
negative. -/
theorem C8_triangles_ccw {α : Type} [LinearOrderedField α]
    (pieces : List (List (Vec2 α))) (vs : List (CurveVertex α))
    (dvs : List (DoubleCurveVertex α)) (t : Triangle α) (ct : CurveTriangle α)
    (dt : DoubleCurveTriangle α)
    (ht : t ∈ triangulate_pieces pieces)
    (hct : ct ∈ make_triangle_fan vs)
    (hdt : dt ∈ make_double_triangle_fan dvs) :
    (0 ≤ (t.b - t.a).cross (t.c - t.a) ∧ t.is_degenerate = false) ∧
    0 ≤ (ct.b.pos - ct.a.pos).cross (ct.c.pos - ct.a.pos) ∧
    0 ≤ (dt.b.pos - dt.a.pos).cross (dt.c.pos - dt.a.pos) := by
  refine ⟨⟨?_, ?_⟩, ?_, ?_⟩
  · unfold triangulate_pieces at ht
    rw [List.mem_filter] at ht
    rcases triangulate_fold_mem pieces [] t ht.1 with h | h
    · cases h
    · obtain ⟨a, b, c, rfl⟩ := h
      exact triangle_new_cross_nonneg a b c
  · unfold triangulate_pieces at ht
    rw [List.mem_filter] at ht
    have h2 := ht.2
    rw [Bool.not_eq_true'] at h2
    exact h2
  · obtain ⟨a, b, c, rfl⟩ := make_triangle_fan_mem vs ct hct
    exact curve_triangle_new_cross_nonneg a b c
  · obtain ⟨a, b, c, rfl⟩ := make_double_triangle_fan_mem dvs dt hdt
    exact double_triangle_new_cross_nonneg a b c



theorem C8_e1 : triangulate_pieces ([[⟨0,0⟩,⟨1,0⟩,⟨0,1⟩]] : List (List (Vec2 ℚ))) =
    [⟨⟨0,0⟩,⟨1,0⟩,⟨0,1⟩⟩] := by
  unfold triangulate_pieces triangulate_monotone Triangle.new Triangle.is_degenerate
  norm_num [Vec2.sub_mk, Vec2.cross_mk, roughly_zero_eq, List.getD_cons_zero,
    List.getD_cons_succ, List.filter]

theorem C8_e2 : make_triangle_fan [cvA, cvB, cvC] = [⟨cvA, cvC, cvB⟩] := by
  unfold make_triangle_fan CurveTriangle.new
  norm_num [show cvA.pos = ⟨0,0⟩ from rfl, show cvB.pos = ⟨1,2⟩ from rfl,
    show cvC.pos = ⟨2,0⟩ from rfl, Vec2.sub_mk, Vec2.cross_mk, List.range_succ, List.filterMap_cons, List.filterMap_nil,
    List.getD_cons_zero, List.getD_cons_succ]

theorem C8_e3 : make_double_triangle_fan
    ([⟨⟨0,0⟩, Vec4.zero, Vec4.zero, false⟩, ⟨⟨1,0⟩, Vec4.zero, Vec4.zero, false⟩,
      ⟨⟨0,1⟩, Vec4.zero, Vec4.zero, false⟩] : List (DoubleCurveVertex ℚ)) =
    [⟨⟨⟨0,0⟩, Vec4.zero, Vec4.zero, false⟩, ⟨⟨1,0⟩, Vec4.zero, Vec4.zero, false⟩,
      ⟨⟨0,1⟩, Vec4.zero, Vec4.zero, false⟩⟩] := by
  unfold make_double_triangle_fan DoubleCurveTriangle.new
  norm_num [Vec2.sub_mk, Vec2.cross_mk, List.range_succ, List.filterMap_cons, List.filterMap_nil,
    List.getD_cons_zero, List.getD_cons_succ]


/-- Witness for C8 at concrete inputs over `ℚ`: the right triangle
`(0,0),(1,0),(0,1)` through the triangulator, the C9 reference vertices
through the curve fan (whose vertices get swapped to restore CCW order), and
an inline double-curve fan. -/
theorem C8_triangles_ccw_witness :
    ((⟨⟨0,0⟩,⟨1,0⟩,⟨0,1⟩⟩ : Triangle ℚ) ∈
        triangulate_pieces ([[⟨0,0⟩,⟨1,0⟩,⟨0,1⟩]] : List (List (Vec2 ℚ))) ∧
      (⟨cvA, cvC, cvB⟩ : CurveTriangle ℚ) ∈ make_triangle_fan [cvA, cvB, cvC] ∧
      (⟨⟨⟨0,0⟩, Vec4.zero, Vec4.zero, false⟩, ⟨⟨1,0⟩, Vec4.zero, Vec4.zero, false⟩,
          ⟨⟨0,1⟩, Vec4.zero, Vec4.zero, false⟩⟩ : DoubleCurveTriangle ℚ) ∈
        make_double_triangle_fan
          [⟨⟨0,0⟩, Vec4.zero, Vec4.zero, false⟩, ⟨⟨1,0⟩, Vec4.zero, Vec4.zero, false⟩,
            ⟨⟨0,1⟩, Vec4.zero, Vec4.zero, false⟩]) ∧
    (((0:ℚ) ≤ ((⟨1,0⟩ : Vec2 ℚ) - ⟨0,0⟩).cross ((⟨0,1⟩ : Vec2 ℚ) - ⟨0,0⟩) ∧
        (⟨⟨0,0⟩,⟨1,0⟩,⟨0,1⟩⟩ : Triangle ℚ).is_degenerate = false) ∧
      (0:ℚ) ≤ (cvC.pos - cvA.pos).cross (cvB.pos - cvA.pos) ∧
      (0:ℚ) ≤ ((⟨1,0⟩ : Vec2 ℚ) - ⟨0,0⟩).cross ((⟨0,1⟩ : Vec2 ℚ) - ⟨0,0⟩)) :=
  have m1 : (⟨⟨0,0⟩,⟨1,0⟩,⟨0,1⟩⟩ : Triangle ℚ) ∈
      triangulate_pieces ([[⟨0,0⟩,⟨1,0⟩,⟨0,1⟩]] : List (List (Vec2 ℚ))) := by
    rw [C8_e1]; exact List.mem_singleton.mpr rfl
  have m2 : (⟨cvA, cvC, cvB⟩ : CurveTriangle ℚ) ∈ make_triangle_fan [cvA, cvB, cvC] := by
    rw [C8_e2]; exact List.mem_singleton.mpr rfl
  have m3 : (⟨⟨⟨0,0⟩, Vec4.zero, Vec4.zero, false⟩, ⟨⟨1,0⟩, Vec4.zero, Vec4.zero, false⟩,
      ⟨⟨0,1⟩, Vec4.zero, Vec4.zero, false⟩⟩ : DoubleCurveTriangle ℚ) ∈
      make_double_triangle_fan
        [⟨⟨0,0⟩, Vec4.zero, Vec4.zero, false⟩, ⟨⟨1,0⟩, Vec4.zero, Vec4.zero, false⟩,
          ⟨⟨0,1⟩, Vec4.zero, Vec4.zero, false⟩] := by
    rw [C8_e3]; exact List.mem_singleton.mpr rfl
  ⟨⟨m1, m2, m3⟩,
    C8_triangles_ccw ([[⟨0,0⟩,⟨1,0⟩,⟨0,1⟩]] : List (List (Vec2 ℚ))) [cvA, cvB, cvC]
      [⟨⟨0,0⟩, Vec4.zero, Vec4.zero, false⟩, ⟨⟨1,0⟩, Vec4.zero, Vec4.zero, false⟩,
        ⟨⟨0,1⟩, Vec4.zero, Vec4.zero, false⟩]
      ⟨⟨0,0⟩,⟨1,0⟩,⟨0,1⟩⟩ ⟨cvA, cvC, cvB⟩
      ⟨⟨⟨0,0⟩, Vec4.zero, Vec4.zero, false⟩, ⟨⟨1,0⟩, Vec4.zero, Vec4.zero, false⟩,
        ⟨⟨0,1⟩, Vec4.zero, Vec4.zero, false⟩⟩ m1 m2 m3⟩


end PRL
